import Mathlib

/-!
# Verification of the solana-trading-intelligence signal-to-trade pipeline

A shallow embedding, in Lean 4, of the decision logic of the core pipeline
components: the pre-flight simulator classifier (`src/logic/simulation/models.py`),
the circuit-breaker risk gate (`src/logic/risk/circuit_breaker.py`), the fresh
wallet matcher (`src/logic/matcher/matcher.py`), the cabal correlation engine
(`src/logic/correlation/engine.py`), the key vault (`src/execution/key_manager.py`),
the Jito bundle submitter (`src/execution/jito.py`) and the execution orchestrator
(`src/execution/orchestrator.py`).

Conventions used throughout the embedding:
* Python `Decimal` values are modelled as `ℚ` (the source forbids binary floats at
  decision points; every concrete constant appearing in the claims is exactly
  representable).
* Wall-clock instants are modelled as natural numbers of seconds (`ℕ`);
  millisecond-valued differences as `ℚ`.
* `await`ed collaborators (database, graph store, router, HTTP) are modelled as
  explicit inputs: a fallible fetch is an `Except String α`, a query result is the
  list it would return.
* A Python function that may raise returns `Except String α`; `Option` is used
  where the source returns `None` on the relevant paths.
* Python truthiness on optional values is modelled by the `pyTruthy*` helpers.
-/

/-- Python truthiness of an `Optional[Decimal]`: `None` and `Decimal("0")` are falsy. -/
def pyTruthyOptQ : Option ℚ → Bool
  | none => false
  | some x => x != 0

/-- Python truthiness of an `Optional[str]`: `None` and `""` are falsy. -/
def pyTruthyOptS : Option String → Bool
  | none => false
  | some s => !s.isEmpty

/-- Python truthiness of an `Optional[bool]`: `None` and `False` are falsy. -/
def pyTruthyOptB : Option Bool → Bool
  | none => false
  | some b => b

/-!
## Simulator risk classifier (`src/logic/simulation/models.py`)

`RiskClassification` and the fields of `SimulationResult` that
`SimulationResult._classify_risk` reads.  The dataclass has more fields
(identifiers, amounts, timestamps); only the ones the classifier inspects are
carried here, with the source's defaults.
-/

/-- `RiskClassification` enum from `src/logic/simulation/models.py`. -/
inductive RiskClassification where
  | safe
  | caution
  | high_risk
  | honeypot
  | unknown
deriving DecidableEq, Repr

/-- The classifier-relevant fields of the `SimulationResult` dataclass, with the
source defaults (`buy_tax=None`, `sell_tax=None`, `transfer_blocked=False`,
`sell_success=None`, `sell_blocked=False`, `sell_error=None`). -/
structure SimulationResult where
  buy_tax : Option ℚ := none
  sell_tax : Option ℚ := none
  transfer_blocked : Bool := false
  sell_success : Option Bool := none
  sell_blocked : Bool := false
  sell_error : Option String := none
deriving DecidableEq, Repr

/-- `SimulationResult._classify_risk`, branch for branch.  The Python guard
`self.sell_tax and self.sell_tax > Decimal("0.50")` is truthiness of the
optional followed by the comparison; `buy_tax or Decimal("0")` collapses both
`None` and `0` to `0`, which agrees with `Option.getD 0` on the value level. -/
def classify_risk (r : SimulationResult) : RiskClassification :=
  if r.sell_blocked || (pyTruthyOptQ r.sell_tax && r.sell_tax.getD 0 > 50/100) then
    .honeypot
  else if r.transfer_blocked then
    .honeypot
  else if !(pyTruthyOptB r.sell_success) && pyTruthyOptS r.sell_error then
    .unknown
  else
    let buy_tax := r.buy_tax.getD 0
    let sell_tax := r.sell_tax.getD 0
    if buy_tax < 5/100 && sell_tax < 5/100 then .safe
    else if sell_tax < 15/100 then .caution
    else if sell_tax < 50/100 then .high_risk
    else .honeypot

/-- The §4.7 classification table, completed so that it is total: the row added
by the amendment is the final `honeypot` (reached exactly at `sell_tax = 0.50`
with an unblocked, non-failing sell leg), and the failure condition of the
`unknown` row is the combined flag `sell_failed_with_error`. -/
def spec_classify (transfer_blocked sell_blocked : Bool) (buy_tax sell_tax : ℚ)
    (sell_failed_with_error : Bool) : RiskClassification :=
  if transfer_blocked || sell_blocked || sell_tax > 50/100 then .honeypot
  else if sell_failed_with_error then .unknown
  else if buy_tax < 5/100 && sell_tax < 5/100 then .safe
  else if sell_tax < 15/100 then .caution
  else if sell_tax < 50/100 then .high_risk
  else .honeypot

/-- A simulation outcome sitting exactly on the 50% sell-tax boundary, with a
successful, unblocked sell leg. -/
def simBoundarySell : SimulationResult :=
  { sell_tax := some (50/100), sell_success := some true }

/-!
## Circuit breaker (`src/logic/risk/circuit_breaker.py`)

`RiskLimits`, `LockdownState`, and the state transitions of `load_state`,
`can_trade`, `validate_position_size`, `record_trade_result` and
`_trigger_lockdown`.  The database is modelled per call: a fetch is an
`Except String (List LockdownState)` (raising, or the parsed rows), and
`save_state`, whose errors the source swallows, has no effect on the returned
state and is dropped.  `datetime.now(timezone.utc)` is passed in as `now : ℕ`
(seconds); `timedelta(hours=h)` is `h * 3600`.
-/

/-- `RiskLimits` dataclass with its source defaults. -/
structure RiskLimits where
  max_daily_drawdown_pct : ℚ := 10/100
  max_single_trade_pct : ℚ := 2/100
  max_position_size_pct : ℚ := 5/100
  max_open_positions : ℕ := 10
  max_consecutive_losses : ℕ := 3
  lockdown_hours : ℕ := 24
deriving DecidableEq, Repr

/-- `LockdownState` dataclass with its source defaults. -/
structure LockdownState where
  is_locked : Bool := false
  locked_at : Option ℕ := none
  lock_reason : Option String := none
  unlock_at : Option ℕ := none
  daily_pnl : ℚ := 0
  daily_pnl_pct : ℚ := 0
  consecutive_losses : ℕ := 0
  open_position_count : ℕ := 0
  total_exposure : ℚ := 0
  last_trade_time : Option ℕ := none
deriving DecidableEq, Repr

/-- `CircuitBreaker.load_state`: on a fetch error the handler installs a fresh
default `LockdownState()`; on success with a row, that row; on success with no
rows, `self._state` is left as it was (possibly still `None`). -/
def load_state (fetch : Except String (List LockdownState))
    (prev : Option LockdownState) : Option LockdownState :=
  match fetch with
  | .error _ => some {}
  | .ok rows =>
    match rows with
    | row :: _ => some row
    | [] => prev

/-- `CircuitBreaker._unlock` (without the swallowed `save_state`). -/
def circuit_unlock (st : LockdownState) : LockdownState :=
  { st with
    is_locked := false
    locked_at := none
    lock_reason := none
    unlock_at := none
    daily_pnl := 0
    daily_pnl_pct := 0
    consecutive_losses := 0 }

/-- `CircuitBreaker.can_trade`.  `fetch` is the database read `load_state`
would perform if `self._state` is still `None` (`prev`).  The value is
`Except Unit (Bool × LockdownState)`: the source dereferences
`self._state.is_locked`, which raises (`.error ()`) in the corner where the
state is still `None` after `load_state` (fetch succeeded with zero rows). -/
def can_trade (limits : RiskLimits) (fetch : Except String (List LockdownState))
    (prev : Option LockdownState) (now : ℕ) : Except Unit (Bool × LockdownState) :=
  let loaded := match prev with
    | none => load_state fetch prev
    | some st => some st
  match loaded with
  | none => .error ()
  | some st =>
    if st.is_locked then
      match st.unlock_at with
      | some u => if now > u then .ok (true, circuit_unlock st) else .ok (false, st)
      | none => .ok (false, st)
    else if st.open_position_count ≥ limits.max_open_positions then
      .ok (false, st)
    else
      .ok (true, st)

/-- `CircuitBreaker.validate_position_size`. -/
def validate_position_size (capital : ℚ) (limits : RiskLimits) (size_sol : ℚ) : Bool :=
  let max_size := capital * limits.max_position_size_pct
  if size_sol > max_size then false else true

/-- `CircuitBreaker._trigger_lockdown`. -/
def trigger_lockdown (limits : RiskLimits) (reason : String) (now : ℕ)
    (st : LockdownState) : LockdownState :=
  { st with
    is_locked := true
    locked_at := some now
    lock_reason := some reason
    unlock_at := some (now + limits.lockdown_hours * 3600) }

/-- `CircuitBreaker.record_trade_result` on an already-loaded state: the pair is
(the boolean the method returns, the state after the call).  The source divides
`daily_pnl` by `self.capital`; `capital ≠ 0` is assumed where theorems need the
division to mean what the source computes (Python would raise on zero). -/
def record_trade_result (capital : ℚ) (limits : RiskLimits) (pnl : ℚ) (is_win : Bool)
    (position_size : ℚ) (now : ℕ) (st : LockdownState) : Bool × LockdownState :=
  let daily_pnl := st.daily_pnl + pnl
  let daily_pnl_pct := daily_pnl / capital
  let consecutive_losses := if is_win then 0 else st.consecutive_losses + 1
  let open_position_count :=
    if st.open_position_count > 0 then st.open_position_count - 1
    else st.open_position_count
  let st1 : LockdownState :=
    { st with
      daily_pnl := daily_pnl
      daily_pnl_pct := daily_pnl_pct
      consecutive_losses := consecutive_losses
      open_position_count := open_position_count
      total_exposure := st.total_exposure - position_size
      last_trade_time := some now }
  if |st1.daily_pnl_pct| > limits.max_daily_drawdown_pct then
    (false, trigger_lockdown limits "Daily drawdown exceeded" now st1)
  else if st1.consecutive_losses ≥ limits.max_consecutive_losses then
    (false, trigger_lockdown limits "Consecutive losses" now st1)
  else
    (true, st1)

/-!
## Execution orchestrator (`src/execution/orchestrator.py`)

`process_signal`, `_calculate_position_size`, `check_exits` and `_execute_exit`.
The injected collaborators (simulator, circuit breaker, router, sub-wallet
manager, Jito, database) are modelled as per-call inputs (`EntryCallEnv`,
`ExitCallEnv`): each field is the value the corresponding awaited call returns.
`_get_current_price` is a placeholder in the source (it always returns `None`,
with the comment "Would query from DEX or price feed"); it is modelled as the
oracle `price_of` supplied to `check_exits`.  The `float`/`str`/`Decimal`
conversions on the size handed to the circuit breaker are value-preserving in
this exact-arithmetic model.  `self._active_positions` is a dict keyed by trade
id, modelled as an association list with dict update semantics; the trade_log
table is the list of rows written by `_log_trade_entry`, updated in place by
`_log_trade_exit`.
-/

/-- `SignalSource` enum. -/
inductive SignalSource where
  | cabal
  | influencer
  | fresh_wallet
  | manual
deriving DecidableEq, Repr

/-- `ExitTier` enum. -/
inductive ExitTier where
  | T1
  | T2
  | T3
  | SL
  | PANIC
deriving DecidableEq, Repr

/-- `TradeSignal` dataclass (the fields `process_signal` reads). -/
structure TradeSignal where
  signal_id : String
  source : SignalSource := .cabal
  source_id : Option String := none
  token_mint : String := ""
  confidence : ℚ := 0
deriving DecidableEq, Repr

/-- `ExecutionResult` dataclass (the fields the orchestrator sets). -/
structure ExecutionResult where
  success : Bool
  trade_id : Option String := none
  entry_price : Option ℚ := none
  amount_received : Option ℚ := none
  fees_paid : Option ℚ := none
  error : Option String := none
deriving DecidableEq, Repr

/-- `ExitStrategy` dataclass with its source defaults. -/
structure ExitStrategy where
  t1_multiplier : ℚ := 2
  t1_sell_pct : ℚ := 50/100
  t2_multiplier : ℚ := 5
  t2_sell_pct : ℚ := 50/100
  t3_multiplier : ℚ := 10
  t3_sell_pct : ℚ := 50/100
  stop_loss_pct : ℚ := -(30/100)
deriving DecidableEq, Repr

/-- A route returned by the router: the `price`, `outAmount` and `fee` entries
the orchestrator reads (`None` routes are the `Option.none` of the caller). -/
structure Route where
  price : ℚ
  outAmount : ℚ := 0
  fee : ℚ := 0
deriving DecidableEq, Repr

/-- One row of the `trade_log` table as written by `_log_trade_entry` and
updated by `_log_trade_exit`. -/
structure TradeLogRow where
  trade_id : String
  signal_source : SignalSource
  signal_id : String
  token_mint : String
  position_size : ℚ
  sub_wallet_address : String
  status : String := "open"
  exit_tier : Option ExitTier := none
  exit_price : Option ℚ := none
deriving DecidableEq, Repr

/-- One value of the `self._active_positions` dict. -/
structure ActivePosition where
  token_mint : String
  entry_price : ℚ
  position_size : ℚ
  token_amount : ℚ
  remaining_pct : ℚ := 1
  sub_wallet_id : String
  sub_wallet_address : String
  entry_time : ℕ
deriving DecidableEq, Repr

/-- The orchestrator's mutable state together with the observable side effects
the claims count: the `trade_log` rows written, and the (float-round-tripped)
sizes passed to `CircuitBreaker.record_position_opened`, one entry per call. -/
structure OrchState where
  active_positions : List (String × ActivePosition) := []
  trade_log : List TradeLogRow := []
  record_opened_calls : List ℚ := []
deriving DecidableEq, Repr

/-- Python dict update `d[k] = v` on an association list. -/
def dictSet {α : Type} (k : String) (v : α) : List (String × α) → List (String × α)
  | [] => [(k, v)]
  | (k', v') :: rest => if k' = k then (k, v) :: rest else (k', v') :: dictSet k v rest

/-- Python dict lookup `d.get(k)` on an association list. -/
def dictGet {α : Type} (k : String) : List (String × α) → Option α
  | [] => none
  | (k', v') :: rest => if k' = k then some v' else dictGet k rest

/-- Python dict delete `del d[k]` on an association list. -/
def dictDel {α : Type} (k : String) : List (String × α) → List (String × α)
  | [] => []
  | (k', v') :: rest => if k' = k then rest else (k', v') :: dictDel k rest

/-- The values an entry run of `process_signal` receives from its awaited
collaborators, plus the fresh `uuid.uuid4()` trade id.  `db_ok`/`db_error`
model whether the `INSERT` in `_log_trade_entry` raises and with what text.
`wallet_get_ok` records the shape of the value `get_available_wallet`
returned: `true` for a dict (the wrapper in `main.py` and the test mocks), on
which `sub_wallet.get("address", "")` succeeds, `false` for an
attribute-style object (the `SubWallet` dataclass from
`execution/subwallets.py`), on which that `.get` call raises AttributeError
before the insert.  `attr_error` is the `str(e)` text of whichever
AttributeError the call dies with. -/
structure EntryCallEnv where
  can_trade : Bool
  is_honeypot : Bool
  route : Option Route
  wallet_address : String
  trade_id : String
  wallet_get_ok : Bool := true
  db_ok : Bool := true
  db_error : String := ""
  attr_error : String := ""
  now : ℕ := 0
deriving DecidableEq, Repr

/-- `ExecutionOrchestrator._calculate_position_size`. -/
def calculate_position_size (capital confidence : ℚ) : ℚ :=
  let base_pct : ℚ := 1/100
  let max_pct : ℚ := 5/100
  let position_pct := base_pct + confidence * (max_pct - base_pct)
  capital * position_pct

/-- `ExecutionOrchestrator.process_signal`.  `capital` is the orchestrator's
capital, `breaker_capital` the circuit breaker's (the deployment wires the same
configured float into both `Decimal(str(capital))` fields); the pair is (the
returned `ExecutionResult`, the state after the call).

`size_roundtrip` is the `float(position_size)` (orchestrator.py:213) /
`Decimal(str(size_sol))` (circuit_breaker.py:230) round-trip the size goes
through on its way to `validate_position_size` and, on line 248, to
`record_position_opened`.  That composite is CPython binary64 rounding plus
shortest-repr printing — arithmetic outside this repository — so it is a
parameter of the embedding; it is the identity on every decimal that is
exactly a double (e.g. the sizes of the C1 fixtures) but not in general.

After `validate_position_size` passes and a route is found, the source enters
its `try` block.  Its first statement already evaluates
`sub_wallet.get("address", "")` (line 244): for an attribute-style wallet
(`SubWallet` from `execution/subwallets.py`, wired by `logic/main.py`) that
raises AttributeError at once, so nothing is inserted (`wallet_get_ok =
false`).  For a dict-shaped wallet (the `main.py` wrapper, the test mocks) the
insert and `record_position_opened` succeed, and the run then dies
unconditionally while building the `_active_positions` entry: `route.get
("price")` (line 253) raises on the `Route` dataclass the repository router
returns, and `sub_wallet.wallet_id` (line 257) raises on a dict — no
collaborator in the repository offers both a `.get` method and a `.wallet_id`
attribute.  The `except` turns the AttributeError into `success=False` with
`error=str(e)`; no position is ever registered, and the source's own
`test_process_signal_success` (which asserts `success is True` over a dict
mock wallet) fails against this path. -/
def process_signal (capital breaker_capital : ℚ) (limits : RiskLimits)
    (size_roundtrip : ℚ → ℚ) (env : EntryCallEnv) (signal : TradeSignal)
    (st : OrchState) : ExecutionResult × OrchState :=
  if !env.can_trade then
    ({ success := false, error := some "Trading halted: Circuit breaker active" }, st)
  else if env.is_honeypot then
    ({ success := false, error := some "Token failed simulation: Potential honeypot" }, st)
  else
    let position_size := calculate_position_size capital signal.confidence
    if !validate_position_size breaker_capital limits (size_roundtrip position_size) then
      ({ success := false, error := some "Position size exceeds risk limits" }, st)
    else
      match env.route with
      | none => ({ success := false, error := some "No route found for swap" }, st)
      | some _ =>
        if !env.wallet_get_ok then
          ({ success := false, error := some env.attr_error }, st)
        else if !env.db_ok then
          ({ success := false, error := some env.db_error }, st)
        else
          let row : TradeLogRow :=
            { trade_id := env.trade_id
              signal_source := signal.source
              signal_id := signal.signal_id
              token_mint := signal.token_mint
              position_size := position_size
              sub_wallet_address := env.wallet_address }
          ({ success := false, error := some env.attr_error },
           { st with
             trade_log := st.trade_log ++ [row]
             record_opened_calls :=
               st.record_opened_calls ++ [size_roundtrip position_size] })

/-- The values one `_execute_exit` run receives from its collaborators:
`route` from `get_best_route`, whether `get_swap_transaction` returned bytes,
and whether the Jito bundle status is not "failed". -/
structure ExitCallEnv where
  route : Option Route
  tx_ok : Bool := true
  bundle_ok : Bool := true
deriving DecidableEq, Repr

/-- A successful sell leg: the observable effect of one non-trivial
`_execute_exit` run (route request, sign, Jito submission). -/
structure ExitLeg where
  trade_id : String
  tier : ExitTier
  sell_pct : ℚ
  tokens_sold : ℚ
  exit_price : ℚ
deriving DecidableEq, Repr

/-- `_log_trade_exit`: the `UPDATE trade_log` row edit. -/
def log_trade_exit (trade_id : String) (exit_tier : ExitTier) (exit_price : ℚ)
    (log : List TradeLogRow) : List TradeLogRow :=
  log.map fun row =>
    if row.trade_id = trade_id then
      { row with status := "closed", exit_tier := some exit_tier, exit_price := some exit_price }
    else row

/-- `ExecutionOrchestrator._execute_exit`.  Returns the `ExecutionResult`, the
state after the run, and the sell legs performed (one on the success path,
none otherwise). -/
def execute_exit (env : ExitCallEnv) (trade_id : String) (exit_tier : ExitTier)
    (sell_pct current_price : ℚ) (st : OrchState) :
    ExecutionResult × OrchState × List ExitLeg :=
  match dictGet trade_id st.active_positions with
  | none => ({ success := false, error := some "Position not found" }, st, [])
  | some position =>
    let remaining_pct := position.remaining_pct
    let total_tokens := position.token_amount
    let current_holding_tokens := total_tokens * remaining_pct
    let tokens_to_sell := current_holding_tokens * sell_pct
    if tokens_to_sell ≤ 0 then
      ({ success := true, error := some "No tokens to sell" }, st, [])
    else
      match env.route with
      | none => ({ success := false, error := some "No route found for exit" }, st, [])
      | some route =>
        if !env.tx_ok then
          ({ success := false, error := some "Failed to build swap tx" }, st, [])
        else if !env.bundle_ok then
          ({ success := false, error := some "Jito submission failed" }, st, [])
        else
          let actual_sell_pct_of_total := remaining_pct * sell_pct
          let new_remaining := remaining_pct - actual_sell_pct_of_total
          let exit_price := route.price
          let leg : ExitLeg :=
            { trade_id := trade_id
              tier := exit_tier
              sell_pct := sell_pct
              tokens_sold := tokens_to_sell
              exit_price := exit_price }
          let result : ExecutionResult :=
            { success := true
              trade_id := some trade_id
              amount_received := some route.outAmount
              entry_price := some exit_price }
          if new_remaining ≤ 1/100 then
            (result,
             { st with
               trade_log := log_trade_exit trade_id exit_tier exit_price st.trade_log
               active_positions := dictDel trade_id st.active_positions },
             [leg])
          else
            (result,
             { st with
               active_positions :=
                 dictSet trade_id { position with remaining_pct := new_remaining }
                   st.active_positions },
             [leg])

/-- The tier/sell-fraction selection inside `check_exits` (stop loss first,
then T3, then T2, then T1), as a function of the price multiple. -/
def check_exit_decision (strat : ExitStrategy) (price_multiple : ℚ) :
    Option (ExitTier × ℚ) :=
  if price_multiple ≤ 1 + strat.stop_loss_pct then some (.SL, 1)
  else if price_multiple ≥ strat.t3_multiplier then some (.T3, strat.t3_sell_pct)
  else if price_multiple ≥ strat.t2_multiplier then some (.T2, strat.t2_sell_pct)
  else if price_multiple ≥ strat.t1_multiplier then some (.T1, strat.t1_sell_pct)
  else none

/-- The loop body of `check_exits` over the snapshot
`list(self._active_positions.items())` taken at call time (lookups inside
`_execute_exit` use the current state). -/
def check_exits_go (strat : ExitStrategy) (price_of : String → Option ℚ)
    (env_of : String → ExitCallEnv) :
    List (String × ActivePosition) → OrchState →
    List ExecutionResult × OrchState × List ExitLeg
  | [], st => ([], st, [])
  | (tid, pos) :: rest, st =>
    match price_of pos.token_mint with
    | none => check_exits_go strat price_of env_of rest st
    | some current_price =>
      if pos.entry_price ≤ 0 then check_exits_go strat price_of env_of rest st
      else
        let price_multiple := current_price / pos.entry_price
        match check_exit_decision strat price_multiple with
        | none => check_exits_go strat price_of env_of rest st
        | some (tier, sell_pct) =>
          let out := execute_exit (env_of tid) tid tier sell_pct current_price st
          let outs := check_exits_go strat price_of env_of rest out.2.1
          (out.1 :: outs.1, outs.2.1, out.2.2 ++ outs.2.2)

/-- `ExecutionOrchestrator.check_exits` with the price feed `price_of` in place
of the `_get_current_price` placeholder. -/
def check_exits (strat : ExitStrategy) (price_of : String → Option ℚ)
    (env_of : String → ExitCallEnv) (st : OrchState) :
    List ExecutionResult × OrchState × List ExitLeg :=
  check_exits_go strat price_of env_of st.active_positions st

/-- The periodic exit loop (§4.13: every 5 s): one `check_exits` call per
observed price, every sell leg succeeding (`ExitCallEnv` with a live route at
the observed price).  Returns the final state and all sell legs in order. -/
def run_exit_checks (strat : ExitStrategy) :
    List ℚ → OrchState → OrchState × List ExitLeg
  | [], st => (st, [])
  | p :: ps, st =>
    let out := check_exits strat (fun _ => some p) (fun _ => { route := some { price := p } }) st
    let rest := run_exit_checks strat ps out.2.1
    (rest.1, out.2.2 ++ rest.2)

/-!
## Fresh wallet matcher (`src/logic/matcher/matcher.py`, `config.py`, `models.py`)

Timestamps are rationals in milliseconds, so that
`(a - b).total_seconds() * 1000` is the plain difference.  The candidate list
is the result of the `_get_fresh_wallet_candidates` database query, supplied as
an input.  The Redis buffering, SQL persistence and graph writes have no effect
on which match is returned and are not modelled.
-/

/-- Python `int()` truncation (toward zero) of a `Decimal`. -/
def pyInt (q : ℚ) : ℤ :=
  if q ≥ 0 then ⌊q⌋ else ⌈q⌉

/-- `MatcherConfig` dataclass with its source defaults. -/
structure MatcherConfig where
  MAX_TIME_WINDOW_MS : ℕ := 300000
  MAX_AMOUNT_DELTA_PCT : ℚ := 1/1000
  MAX_AMOUNT_DELTA_HARD_PCT : ℚ := 5/1000
  TIME_WEIGHT : ℚ := 4/10
  AMOUNT_WEIGHT : ℚ := 6/10
  MIN_MATCH_SCORE : ℚ := 75/100
  FRESHNESS_BONUS : ℚ := 1/10
  MAX_CANDIDATES_PER_QUERY : ℕ := 100
deriving DecidableEq, Repr

/-- `CEXWithdrawal` dataclass (fields the matcher reads). -/
structure CEXWithdrawal where
  tx_hash : String
  cex_source : String
  amount : ℚ
  decimals : ℕ := 9
  timestamp : ℚ
deriving DecidableEq, Repr

/-- `FreshWallet` dataclass. -/
structure FreshWallet where
  address : String
  first_funded_tx : String
  first_funded_amount : ℚ
  first_funded_time : ℚ
  tx_count : ℕ := 0
deriving DecidableEq, Repr

/-- `MatchResult` dataclass (fields `process_withdrawal` sets). -/
structure MatchResult where
  withdrawal : CEXWithdrawal
  wallet : FreshWallet
  time_delta_ms : ℤ
  amount_delta_pct : ℚ
  match_score : ℚ
  linked_parent_id : Option String := none
deriving DecidableEq, Repr

/-- `CEXFreshWalletMatcher._calculate_match_score`, branch for branch.  The
Python conditional `... if withdrawal.amount else Decimal("1")` is the
truthiness test on the amount, and the `if self.config.MAX_AMOUNT_DELTA_PCT`
guard likewise. -/
def calculate_match_score (cfg : MatcherConfig) (withdrawal : CEXWithdrawal)
    (wallet : FreshWallet) : ℚ :=
  let time_delta_ms := |wallet.first_funded_time - withdrawal.timestamp|
  if time_delta_ms > (cfg.MAX_TIME_WINDOW_MS : ℚ) then 0
  else
    let time_score := 1 - time_delta_ms / (cfg.MAX_TIME_WINDOW_MS : ℚ)
    let amount_delta := |wallet.first_funded_amount - withdrawal.amount|
    let amount_delta_pct :=
      if withdrawal.amount != 0 then amount_delta / withdrawal.amount else 1
    if amount_delta_pct > cfg.MAX_AMOUNT_DELTA_HARD_PCT then 0
    else
      let amount_score :=
        if amount_delta_pct > cfg.MAX_AMOUNT_DELTA_PCT then 1/2
        else if cfg.MAX_AMOUNT_DELTA_PCT != 0 then
          1 - amount_delta_pct / cfg.MAX_AMOUNT_DELTA_PCT
        else 1
      let freshness_bonus := if wallet.tx_count = 0 then cfg.FRESHNESS_BONUS else 0
      min 1 (cfg.TIME_WEIGHT * time_score + cfg.AMOUNT_WEIGHT * amount_score +
        freshness_bonus)

/-- Python `max(xs, key=f)` starting from `best`: items replace the running
maximum only when strictly greater, so the first of several equal maxima wins. -/
def pyMaxBy {α : Type} (f : α → ℚ) : α → List α → α
  | best, [] => best
  | best, x :: rest => pyMaxBy f (if f x > f best then x else best) rest

/-- `CEXFreshWalletMatcher.process_withdrawal` on the candidate list returned
by the database query.  The source accumulates `(wallet, score)` pairs in a
loop and recomputes nothing; filtering on the pure score function is the same
selection.  Step 5 of the source divides by `withdrawal.amount` without the
zero guard (a zero-amount withdrawal would raise there); rationals make that
corner `0` instead, and no theorem touches it. -/
def process_withdrawal (cfg : MatcherConfig) (candidates : List FreshWallet)
    (withdrawal : CEXWithdrawal) : Option MatchResult :=
  if candidates.isEmpty then none
  else
    let scored := candidates.filter fun w =>
      calculate_match_score cfg withdrawal w ≥ cfg.MIN_MATCH_SCORE
    match scored with
    | [] => none
    | w :: rest =>
      let best := pyMaxBy (calculate_match_score cfg withdrawal) w rest
      some
        { withdrawal := withdrawal
          wallet := best
          time_delta_ms := pyInt (best.first_funded_time - withdrawal.timestamp)
          amount_delta_pct :=
            |best.first_funded_amount - withdrawal.amount| / withdrawal.amount
          match_score := calculate_match_score cfg withdrawal best }

/-!
## Cabal correlation engine (`src/logic/correlation/engine.py`, `config.py`)

`process_event` and `_calculate_correlation`.  The database-backed inputs are
supplied per call: `matching` is what `_find_correlated_wallets` returned
(cache or store), and `CorrEnv` carries the `_calculate_order_score` and
`_get_shared_history` query results per wallet pair.  The graph upserts
(`_update_graph_relationship`) and confidence updates (`_escalate_confidence`)
are returned as the list of edges and the list of escalated wallets; the
cluster bookkeeping (`_update_cluster`) does not affect which pairs are
emitted and is not modelled.
-/

/-- `CorrelationConfig` dataclass with its source defaults (note the comments
in the source: `MIN_CLUSTER_SIZE = 2  # Lowered from 3 for testing` and
`MIN_CORRELATION_SCORE = Decimal("0.5")  # Lowered from 0.6 for testing`). -/
structure CorrelationConfig where
  BLOCK_WINDOW : ℕ := 10
  MIN_CLUSTER_SIZE : ℕ := 2
  TIME_PROXIMITY_WEIGHT : ℚ := 4/10
  TX_ORDER_WEIGHT : ℚ := 3/10
  HISTORY_WEIGHT : ℚ := 3/10
  MIN_CORRELATION_SCORE : ℚ := 5/10
  ESCALATION_BASE : ℚ := 1/10
  MAX_WALLETS_PER_EVENT : ℕ := 50
  SHARED_CONTRACTS_STRONG : ℕ := 5
  MONITORED_PROGRAMS : List String :=
    ["675kPX9MHTjS2zt1qfr1NYHuzeLXfQM9H24wFSUt1Mp8",
     "JUP6LkbZbjS1jKKwapdHNy74zcZ3tLUZoi5QNyVTaV4",
     "whirLbMiicVdio4qvUfM5KAg6Ct8VwpYzGff3uctyCc"]
deriving DecidableEq, Repr

/-- `CorrelationEvent` dataclass (timestamps in milliseconds, as `ℚ`). -/
structure CorrelationEvent where
  contract_address : String
  slot : ℕ
  timestamp : ℚ
  wallet_address : String
  tx_hash : String
  action : String := "unknown"
deriving DecidableEq, Repr

/-- `CorrelationResult` dataclass. -/
structure CorrelationResult where
  wallet_a : String
  wallet_b : String
  correlation_score : ℚ
  shared_contracts : List String
  time_proximity_avg_ms : ℚ
  co_occurrence_count : ℕ
  contract_address : String
deriving DecidableEq, Repr

/-- The database-backed sub-scores of `_calculate_correlation`, per wallet
pair: the value `_calculate_order_score` returns, and the
`(shared contracts, co-occurrence count)` pair from `_get_shared_history`. -/
structure CorrEnv where
  order_score : String → String → ℚ
  shared_history : String → String → List String × ℕ

/-- `CabalCorrelationEngine._calculate_correlation`. -/
def calculate_correlation (cfg : CorrelationConfig) (env : CorrEnv)
    (event_a event_b : CorrelationEvent) : CorrelationResult :=
  let wallet_a := event_a.wallet_address
  let wallet_b := event_b.wallet_address
  let time_delta_ms := |event_a.timestamp - event_b.timestamp|
  let max_time_ms : ℚ := (cfg.BLOCK_WINDOW : ℚ) * 400
  let time_score := 1 - min 1 (time_delta_ms / max_time_ms)
  let order_score := env.order_score wallet_a wallet_b
  let shared := env.shared_history wallet_a wallet_b
  let history_score :=
    min 1 ((shared.1.length : ℚ) / (cfg.SHARED_CONTRACTS_STRONG : ℚ))
  let correlation_score :=
    cfg.TIME_PROXIMITY_WEIGHT * time_score + cfg.TX_ORDER_WEIGHT * order_score +
      cfg.HISTORY_WEIGHT * history_score
  { wallet_a := wallet_a
    wallet_b := wallet_b
    correlation_score := min 1 correlation_score
    shared_contracts := shared.1
    time_proximity_avg_ms := time_delta_ms
    co_occurrence_count := shared.2
    contract_address := event_a.contract_address }

/-- The pairwise loop of `process_event`: for each matching event of a distinct
wallet, the correlation is computed, and iff its score reaches
`MIN_CORRELATION_SCORE` the result is appended, a `CORRELATED_WITH` edge is
upserted, and both participants have their confidence escalated. -/
def process_event_go (cfg : CorrelationConfig) (env : CorrEnv)
    (event : CorrelationEvent) :
    List CorrelationEvent →
    List CorrelationResult × List (String × String) × List String
  | [] => ([], [], [])
  | other :: rest =>
    let tail := process_event_go cfg env event rest
    if other.wallet_address = event.wallet_address then tail
    else
      let correlation := calculate_correlation cfg env event other
      if correlation.correlation_score ≥ cfg.MIN_CORRELATION_SCORE then
        (correlation :: tail.1,
         (correlation.wallet_a, correlation.wallet_b) :: tail.2.1,
         correlation.wallet_a :: correlation.wallet_b :: tail.2.2)
      else tail

/-- `CabalCorrelationEngine.process_event`: the guards (monitored program,
minimum cluster size on the matching-event count) followed by the pairwise
loop.  Returns (emitted `CorrelationResult`s, upserted edges, wallets whose
confidence was escalated). -/
def process_event (cfg : CorrelationConfig) (env : CorrEnv)
    (matching : List CorrelationEvent) (event : CorrelationEvent) :
    List CorrelationResult × List (String × String) × List String :=
  if !(cfg.MONITORED_PROGRAMS.contains event.contract_address) then ([], [], [])
  else if matching.length < cfg.MIN_CLUSTER_SIZE then ([], [], [])
  else process_event_go cfg env event matching

/-!
## Jito bundle submitter (`src/execution/jito.py`)

`calculate_tip` and `create_tip_instruction`.  `random.choice` over the tip
accounts is modelled by passing the chosen account in.  The float arithmetic of
`calculate_tip` is modelled over `ℚ`; `int()` is `pyInt`.
-/

/-- `JitoConfig` dataclass (the tip-relevant fields) with its source defaults. -/
structure JitoConfig where
  default_tip : ℕ := 10000
  min_tip : ℕ := 1000
  max_tip : ℕ := 1000000000
  max_transactions : ℕ := 5
deriving DecidableEq, Repr

/-- `TipInstruction` dataclass. -/
structure TipInstruction where
  from_pubkey : String
  to_pubkey : String
  lamports : ℤ
deriving DecidableEq, Repr

/-- `JitoBundleSubmitter.calculate_tip`. -/
def calculate_tip (cfg : JitoConfig) (urgency bundle_size : ℤ)
    (network_congestion : ℚ) : ℤ :=
  let base_tip : ℚ := (cfg.default_tip : ℚ)
  let urgency_multiplier : ℚ := 2 ^ (urgency - 1)
  let size_multiplier : ℚ := 1 + ((bundle_size : ℚ) - 1) * (5/10)
  let congestion_multiplier : ℚ := max 1 network_congestion
  let calculated : ℤ :=
    pyInt (base_tip * urgency_multiplier * size_multiplier * congestion_multiplier)
  max (cfg.min_tip : ℤ) (min calculated (cfg.max_tip : ℤ))

/-- `JitoBundleSubmitter.create_tip_instruction` with the randomly chosen tip
account passed in.  Python `tip_lamports or self.config.default_tip` maps both
`None` and `0` to the default. -/
def create_tip_instruction (cfg : JitoConfig) (tip_account : String)
    (payer : String) (tip_lamports : Option ℤ) : TipInstruction :=
  let t : ℤ :=
    match tip_lamports with
    | none => (cfg.default_tip : ℤ)
    | some v => if v = 0 then (cfg.default_tip : ℤ) else v
  let clamped : ℤ := max (cfg.min_tip : ℤ) (min t (cfg.max_tip : ℤ))
  { from_pubkey := payer, to_pubkey := tip_account, lamports := clamped }

/-!
## Key vault (`src/execution/key_manager.py`)

`AESKeyManager.encrypt_key` / `decrypt_key`.  Bytes are natural numbers below
256; blobs are `List ℕ`, the stored form is a `String`.

The `AESGCM` cipher itself comes from the external `cryptography` library, not
from this repository.  Modelled from the spec: §4.9 requires authenticated
encryption in which "decrypt must verify the tag and return an error on any
tampering", with a per-record 96-bit nonce and 128-bit tag; the model below
realises that contract concretely — the ciphertext is the plaintext followed
by a 16-byte tag that binds the cipher key, the nonce, every bit of the body
(via an xor checksum, so that any single-bit change is detected) and the body
length, and decryption recomputes and compares the tag.  `_derive_key`
(SHA-256 of a domain tag and the master secret) is likewise external; the
derived 32-byte key is passed in as `key`.

Base64 is modelled as CPython's `base64.b64encode`/`b64decode` behave on the
strings the theorems touch: standard alphabet, `=` padding, and — the detail
the tamper claim turns on — `b64decode` discards the unused low bits of the
final partial 6-bit group instead of validating them, so two distinct strings
can decode to the same bytes.  (CPython's default non-strict decoder also
skips non-alphabet characters; this model instead rejects them, and no theorem
exercises that corner.)
-/

/-- Xor checksum of a byte list. -/
def xorsum (bs : List ℕ) : ℕ :=
  bs.foldr Nat.xor 0

/-- Modelled from the spec: the 16-byte authentication tag of the `AESGCM`
stand-in, binding key, nonce, body bits and body length. -/
def gcmTag (key nonce pt : List ℕ) : List ℕ :=
  xorsum key % 256 :: xorsum nonce % 256 :: xorsum pt % 256 :: pt.length % 256 ::
    List.replicate 12 0

/-- Modelled from the spec: `AESGCM(key).encrypt(nonce, pt, None)` — the
ciphertext with the tag appended. -/
def aesgcm_encrypt (key nonce pt : List ℕ) : List ℕ :=
  pt ++ gcmTag key nonce pt

/-- Modelled from the spec: `AESGCM(key).decrypt(nonce, ct, None)` — split off
the 16-byte tag, recompute it over the body, reject on mismatch. -/
def aesgcm_decrypt (key nonce ct : List ℕ) : Option (List ℕ) :=
  if ct.length < 16 then none
  else
    let body := ct.take (ct.length - 16)
    let tag := ct.drop (ct.length - 16)
    if tag = gcmTag key nonce body then some body else none

/-- The standard base64 alphabet, value (0–63) to character. -/
def b64chr (v : ℕ) : Char :=
  if v < 26 then Char.ofNat (v + 65)
  else if v < 52 then Char.ofNat (v + 71)
  else if v < 62 then Char.ofNat (v - 4)
  else if v = 62 then '+'
  else '/'

/-- The standard base64 alphabet, character to value. -/
def b64val (c : Char) : Option ℕ :=
  let n := c.toNat
  if 65 ≤ n && n ≤ 90 then some (n - 65)
  else if 97 ≤ n && n ≤ 122 then some (n - 71)
  else if 48 ≤ n && n ≤ 57 then some (n + 4)
  else if n = 43 then some 62
  else if n = 47 then some 63
  else none

/-- `base64.b64encode` on a byte list: 3-byte groups to 4 characters, with
`=` padding on a trailing 1- or 2-byte group. -/
def b64encodeBytes : List ℕ → List Char
  | [] => []
  | [b1] => [b64chr (b1 / 4), b64chr (b1 % 4 * 16), '=', '=']
  | [b1, b2] => [b64chr (b1 / 4), b64chr (b1 % 4 * 16 + b2 / 16),
      b64chr (b2 % 16 * 4), '=']
  | b1 :: b2 :: b3 :: rest =>
    b64chr (b1 / 4) :: b64chr (b1 % 4 * 16 + b2 / 16) ::
      b64chr (b2 % 16 * 4 + b3 / 64) :: b64chr (b3 % 64) :: b64encodeBytes rest

/-- `base64.b64decode` on a character list: 4-character quanta; a final
quantum may carry `=` padding, and the unused low bits of its last data
character are discarded, exactly as CPython's decoder does. -/
def b64decodeChars : List Char → Option (List ℕ)
  | [] => some []
  | c1 :: c2 :: c3 :: c4 :: rest =>
    if rest.isEmpty then
      if c3 = '=' && c4 = '=' then
        match b64val c1, b64val c2 with
        | some v1, some v2 => some [v1 * 4 + v2 / 16]
        | _, _ => none
      else if c4 = '=' then
        match b64val c1, b64val c2, b64val c3 with
        | some v1, some v2, some v3 =>
          some [v1 * 4 + v2 / 16, v2 % 16 * 16 + v3 / 4]
        | _, _, _ => none
      else
        match b64val c1, b64val c2, b64val c3, b64val c4 with
        | some v1, some v2, some v3, some v4 =>
          some [v1 * 4 + v2 / 16, v2 % 16 * 16 + v3 / 4, v3 % 4 * 64 + v4]
        | _, _, _, _ => none
    else
      match b64val c1, b64val c2, b64val c3, b64val c4, b64decodeChars rest with
      | some v1, some v2, some v3, some v4, some bs =>
        some ((v1 * 4 + v2 / 16) :: (v2 % 16 * 16 + v3 / 4) ::
          (v3 % 4 * 64 + v4) :: bs)
      | _, _, _, _, _ => none
  | _ => none

/-- `AESKeyManager.encrypt_key`, with the random 12-byte nonce passed in:
refuse an empty key, encrypt, prepend the nonce, base64-encode. -/
def encrypt_key (key nonce private_key : List ℕ) : Except String String :=
  if private_key.isEmpty then .error "Cannot encrypt empty key"
  else .ok (String.mk (b64encodeBytes (nonce ++ aesgcm_encrypt key nonce private_key)))

/-- `AESKeyManager.decrypt_key`: refuse empty input, base64-decode, check the
minimum length, split the nonce off, decrypt.  Every `.error` is a
`KeyEncryptionError` in the source (the length check raises inside the `try`
and is re-wrapped like the rest). -/
def decrypt_key (key : List ℕ) (encrypted : String) : Except String (List ℕ) :=
  if encrypted.isEmpty then .error "Cannot decrypt empty data"
  else
    match b64decodeChars encrypted.data with
    | none => .error "Failed to decrypt key"
    | some encrypted_data =>
      if encrypted_data.length < 12 + 16 then .error "Encrypted data too short"
      else
        let nonce := encrypted_data.take 12
        let ciphertext := encrypted_data.drop 12
        match aesgcm_decrypt key nonce ciphertext with
        | some private_key => .ok private_key
        | none => .error "Failed to decrypt key"

/-- Flip bit `j` of the byte at index `i`. -/
def flipByte (bs : List ℕ) (i j : ℕ) : List ℕ :=
  bs.set i (Nat.xor (bs.getD i 0) (2 ^ j))

/-- Flip bit `j` of the character code at index `i` of a stored blob. -/
def flipCharBit (s : String) (i j : ℕ) : String :=
  String.mk (s.data.set i (Char.ofNat (Nat.xor ((s.data.getD i 'A').toNat) (2 ^ j))))

/-!
## Concrete fixtures used by counterexamples and witnesses
-/

/-- A well-formed mid-confidence signal. -/
def sigDup : TradeSignal :=
  { signal_id := "sig-1", token_mint := "MINT", confidence := 1/2 }

/-- An entry environment in which every gate passes (first delivery): breaker
allows, no honeypot, a live route, a dict-shaped wallet, the insert succeeds;
the run then dies in the position-dict construction with the recorded
AttributeError text. -/
def envDup1 : EntryCallEnv :=
  { can_trade := true
    is_honeypot := false
    route := some { price := 1, outAmount := 1000 }
    wallet_address := "addr1"
    trade_id := "trade-1"
    attr_error := "dict object has no attribute wallet_id" }

/-- The same environment on the duplicate delivery (fresh `uuid.uuid4()`). -/
def envDup2 : EntryCallEnv :=
  { envDup1 with trade_id := "trade-2" }

/-- The orchestrator state after two deliveries of `sigDup`.  The fixture
sizes (30) are exactly representable doubles, so the size round-trip is the
identity here. -/
def orchAfterTwo : OrchState :=
  (process_signal 1000 1000 {} id envDup2 sigDup
    (process_signal 1000 1000 {} id envDup1 sigDup {}).2).2

/-- Modelled from the spec: the `float(position_size)` / `Decimal(str(size_sol))`
round-trip between orchestrator.py:213 and circuit_breaker.py:230 is CPython
binary64 arithmetic, not repository code.  This function records its value at
the one decimal the C10 counterexample sends through it:
`float(Decimal("0.166666666666666675"))` rounds to nearest to the binary64
whose shortest decimal representation — and hence whose `Decimal(str(.))`
value — is `0.16666666666666669` (the stored decimal lies above the midpoint
`0.16666666666666667129...` of its two neighbouring doubles, so it rounds up).
Elsewhere the function is left as the identity; no theorem evaluates it
elsewhere. -/
def sizeFloatRoundTrip (q : ℚ) : ℚ :=
  if q = 166666666666666675/1000000000000000000 then
    16666666666666669/100000000000000000
  else q

/-- `Decimal(str(3.3333333333333335))`: the shared capital both constructors
store when the configured float capital is `10/3` (shortest repr
`3.3333333333333335`). -/
def capFloat : ℚ :=
  33333333333333335/10000000000000000

/-- A full-confidence, well-formed signal. -/
def sigConf1 : TradeSignal :=
  { signal_id := "sig-2", token_mint := "MINT", confidence := 1 }

/-- An environment that reaches the size validation: breaker allows, token not
a honeypot (the later steps are irrelevant to the size rejection). -/
def envSizeCheck : EntryCallEnv :=
  { can_trade := true
    is_honeypot := false
    route := none
    wallet_address := ""
    trade_id := "trade-3" }

/-- Scenario E position: opened at entry price `p` holding `a` raw token
units, remaining fraction 1. -/
def posScenE (p a : ℚ) : ActivePosition :=
  { token_mint := "MINT"
    entry_price := p
    position_size := 1
    token_amount := a
    remaining_pct := 1
    sub_wallet_id := "w"
    sub_wallet_address := "addr"
    entry_time := 0 }

/-- Scenario E price feed: `1.5p, 2.1p, 4.8p, 5.2p, 11p`. -/
def scenEPrices (p : ℚ) : List ℚ :=
  [3/2 * p, 21/10 * p, 24/5 * p, 26/5 * p, 11 * p]

/-- Scenario E initial orchestrator state. -/
def scenEState (p a : ℚ) : OrchState :=
  { active_positions := [("t", posScenE p a)] }

/-- A simulation outcome whose sell leg reported an error but succeeded. -/
def simSellErrOk : SimulationResult :=
  { sell_error := some "no route", sell_success := some true }

/-- The same outcome with a failed sell leg. -/
def simSellErrFail : SimulationResult :=
  { sell_error := some "no route", sell_success := some false }

/-- A correlation environment with no order history (neutral 0.5 order score)
and no shared-contract history. -/
def corrEnvNeutral : CorrEnv :=
  { order_score := fun _ _ => 5/10
    shared_history := fun _ _ => ([], 0) }

/-- A correlation event of wallet `A` on the monitored Raydium program. -/
def corrEvA : CorrelationEvent :=
  { contract_address := "675kPX9MHTjS2zt1qfr1NYHuzeLXfQM9H24wFSUt1Mp8"
    slot := 100
    timestamp := 0
    wallet_address := "walletA"
    tx_hash := "txA" }

/-- A simultaneous event of wallet `B` on the same program. -/
def corrEvB : CorrelationEvent :=
  { corrEvA with wallet_address := "walletB", tx_hash := "txB" }

/-- A withdrawal of 10 SOL at time 0 (milliseconds). -/
def wdFix : CEXWithdrawal :=
  { tx_hash := "0xabc", cex_source := "Binance", amount := 10, timestamp := 0 }

/-- A candidate funded 400 s after `wdFix` — outside the 300 s window. -/
def fwLate : FreshWallet :=
  { address := "late", first_funded_tx := "t1", first_funded_amount := 10,
    first_funded_time := 400000 }

/-- The all-zero 32-byte cipher key (stands for the SHA-256-derived master key). -/
def gcmKey0 : List ℕ :=
  List.replicate 32 0

/-- An all-zero 12-byte nonce. -/
def nonce0 : List ℕ :=
  List.replicate 12 0

/-- The stored blob `encrypt_key` produces for the one-byte key `[0]` under
`gcmKey0`/`nonce0`. -/
def blobOneByte : String :=
  "AAAAAAAAAAAAAAAAAAAAAAEAAAAAAAAAAAAAAAA="

/-!
## Theorems
-/

/-- C2 counterexample: with the relational store unreachable (the `db.fetch`
inside `load_state` raises on the only fetch the call performs) and no state
cached yet, `can_trade()` returns `true` with a fresh default state — not
`false` as the fail-closed claim requires. -/
theorem C2_counterexample :
    can_trade {} (Except.error "connection refused") none 0 = .ok (true, {}) := by
  rfl

/-- C2 (amended): the gate fails open, not closed.  If the relational store is
unreachable during `can_trade()` — the fetch raises, whatever the message and
whatever the current time — the exception handler in `load_state` installs a
fresh default (unlocked, zero open positions) state and `can_trade()` returns
`true`. -/
theorem C2_fail_open (msg : String) (now : ℕ) :
    can_trade {} (Except.error msg) none now = .ok (true, {}) := by
  rfl

/-- C4 counterexample: `record_trade_result` does not strictly decrease
`open_position_count` for every prior state — from the default state (zero
open positions) the counter stays at zero, because the source guards the
decrement with `if self._state.open_position_count > 0`. -/
theorem C4_counterexample :
    (record_trade_result 1000 {} 5 true 0 0 {}).2.open_position_count = 0 ∧
    ¬((record_trade_result 1000 {} 5 true 0 0 {}).2.open_position_count
        < ({} : LockdownState).open_position_count) := by
  norm_num [record_trade_result, trigger_lockdown, abs_of_nonneg]

/-- C4 (amended): after `record_trade_result(pnl, is_win, size)` under the
default limits, `daily_pnl` changes by exactly `pnl`; `open_position_count`
decreases by one when it was positive and stays at zero otherwise;
`consecutive_losses` resets to 0 on a win and increments by 1 on a loss; and
if afterwards `|daily_pnl / capital| > 10%` or `consecutive_losses ≥ 3`, the
breaker is locked with `unlock_at = now + 24 h > now`. -/
theorem C4_risk_monotonicity (capital pnl : ℚ) (is_win : Bool) (size : ℚ) (now : ℕ)
    (st : LockdownState) (hcap : capital ≠ 0) :
    ((record_trade_result capital {} pnl is_win size now st).2.daily_pnl
        = st.daily_pnl + pnl) ∧
    (0 < st.open_position_count →
      (record_trade_result capital {} pnl is_win size now st).2.open_position_count
        = st.open_position_count - 1) ∧
    (st.open_position_count = 0 →
      (record_trade_result capital {} pnl is_win size now st).2.open_position_count = 0) ∧
    (is_win = true →
      (record_trade_result capital {} pnl is_win size now st).2.consecutive_losses = 0) ∧
    (is_win = false →
      (record_trade_result capital {} pnl is_win size now st).2.consecutive_losses
        = st.consecutive_losses + 1) ∧
    ((|(st.daily_pnl + pnl) / capital| > 10/100 ∨
        (record_trade_result capital {} pnl is_win size now st).2.consecutive_losses ≥ 3) →
      (record_trade_result capital {} pnl is_win size now st).2.is_locked = true ∧
      (record_trade_result capital {} pnl is_win size now st).2.unlock_at
        = some (now + 24 * 3600) ∧
      now < now + 24 * 3600) := by
  refine ⟨?_, ?_, ?_, ?_, ?_, ?_⟩
  · simp only [record_trade_result, trigger_lockdown]
    split_ifs <;> rfl
  · intro h
    simp only [record_trade_result, trigger_lockdown]
    split_ifs <;> simp_all
  · intro h
    simp only [record_trade_result, trigger_lockdown]
    split_ifs <;> simp_all
  · intro h
    subst h
    simp only [record_trade_result, trigger_lockdown]
    split_ifs <;> simp_all
  · intro h
    subst h
    simp only [record_trade_result, trigger_lockdown]
    split_ifs <;> simp_all
  · intro h
    simp only [record_trade_result, trigger_lockdown] at h ⊢
    by_cases h1 : |(st.daily_pnl + pnl) / capital| > 10/100 <;>
      by_cases hw : is_win <;>
        by_cases hl : st.consecutive_losses + 1 ≥ 3 <;>
          simp_all <;> try (split_ifs <;> simp_all)

/-- C4 witness: a losing trade of −200 on capital 1000 from a state with three
open positions. -/
theorem C4_risk_monotonicity_witness :
    (1000 : ℚ) ≠ 0 ∧
    (record_trade_result 1000 {} (-200) false 10 0
        { open_position_count := 3 }).2.daily_pnl
      = ({ open_position_count := 3 } : LockdownState).daily_pnl + (-200) :=
  ⟨by norm_num,
   (C4_risk_monotonicity 1000 (-200) false 10 0 { open_position_count := 3 } (by norm_num)).1⟩

/-- C5 counterexample: at `sell_tax = 0.50` exactly (sell leg successful,
nothing blocked) `_classify_risk` lands in its final `else` and returns
`honeypot`, although the claimed table says Honeypot only when
`transfer_blocked ∨ sell_blocked ∨ sell_tax > 0.50`; moreover two results
agreeing on the claimed 5-tuple (buy_tax, sell_tax, transfer_blocked,
sell_blocked, sell_error) but differing in `sell_success` classify differently
(`safe` vs `unknown`), so the class is not a function of that 5-tuple. -/
theorem C5_counterexample :
    classify_risk simBoundarySell = RiskClassification.honeypot ∧
    simBoundarySell.transfer_blocked = false ∧
    simBoundarySell.sell_blocked = false ∧
    ¬(simBoundarySell.sell_tax.getD 0 > 50/100) ∧
    classify_risk simSellErrOk = RiskClassification.safe ∧
    classify_risk simSellErrFail = RiskClassification.unknown ∧
    simSellErrOk.buy_tax = simSellErrFail.buy_tax ∧
    simSellErrOk.sell_tax = simSellErrFail.sell_tax ∧
    simSellErrOk.transfer_blocked = simSellErrFail.transfer_blocked ∧
    simSellErrOk.sell_blocked = simSellErrFail.sell_blocked ∧
    simSellErrOk.sell_error = simSellErrFail.sell_error := by
  norm_num [classify_risk, simBoundarySell, simSellErrOk, simSellErrFail,
    pyTruthyOptQ, pyTruthyOptB, pyTruthyOptS] <;> decide

/-- C5 (amended): the risk class is a pure function of (buy_tax, sell_tax,
transfer_blocked, sell_blocked, sell_success, sell_error) — taxes defaulted
to 0, failure meaning "sell not successful and a non-empty sell_error" — and
equals the §4.7 table completed with one extra row: `sell_tax = 0.50` exactly,
with an unblocked non-failing sell leg, is also `honeypot`. -/
theorem C5_classifier_law (r : SimulationResult) :
    classify_risk r =
      spec_classify r.transfer_blocked r.sell_blocked (r.buy_tax.getD 0) (r.sell_tax.getD 0)
        (!(pyTruthyOptB r.sell_success) && pyTruthyOptS r.sell_error) := by
  obtain ⟨bt, ts, tb, ss, sb, se⟩ := r
  simp only [classify_risk, spec_classify, pyTruthyOptQ]
  cases tb <;> cases sb <;>
    rcases ts with _ | t <;>
      (try simp_all) <;> (try split_ifs) <;> (try simp_all) <;> (try linarith)

/-- C9 counterexample: at urgency 1, bundle size 1 and congestion 33/32 the
code returns `int(10312.5) = 10312`, while the claimed clamp formula yields
the non-integer 10312.5 — `calculate_tip` truncates before clamping. -/
theorem C9_counterexample :
    calculate_tip {} 1 1 (33/32) = 10312 ∧
    ((10312 : ℚ) ≠
      max 1000 (min ((10000 : ℚ) * 2 ^ ((1 : ℤ) - 1) * (1 + ((1 : ℚ) - 1) * (5/10)) *
        max 1 (33/32)) (10 ^ 9))) := by
  constructor
  · norm_num [calculate_tip, pyInt]
  · norm_num

/-- C9 (amended): for urgency ≥ 1 and bundle size ≥ 0, `calculate_tip` equals
`clamp(⌊T_default · 2^(urgency−1) · (1 + 0.5·(size−1)) · max(1, congestion)⌋,
T_min, T_max)` — the product is truncated to an integer before clamping — and
is therefore always within `[1000, 10^9]`; and the lamport amount placed in a
tip instruction by `create_tip_instruction` is always within `[1000, 10^9]`. -/
theorem C9_tip_clamp (u s : ℤ) (c : ℚ) (hu : 1 ≤ u) (hs : 0 ≤ s) :
    (calculate_tip {} u s c =
      max 1000 (min ⌊(10000 : ℚ) * 2 ^ (u - 1) * (1 + ((s : ℚ) - 1) * (5/10)) * max 1 c⌋
        (10 ^ 9))) ∧
    1000 ≤ calculate_tip {} u s c ∧
    calculate_tip {} u s c ≤ 10 ^ 9 ∧
    ∀ (acct payer : String) (t : Option ℤ),
      1000 ≤ (create_tip_instruction {} acct payer t).lamports ∧
      (create_tip_instruction {} acct payer t).lamports ≤ 10 ^ 9 := by
  have hsq : (0 : ℚ) ≤ (s : ℚ) := by exact_mod_cast hs
  have hq : (0 : ℚ) ≤ (10000 : ℚ) * 2 ^ (u - 1) * (1 + ((s : ℚ) - 1) * (5/10)) * max 1 c := by
    have h2 : (0 : ℚ) < 2 ^ (u - 1) := zpow_pos (by norm_num) _
    have h3 : (0 : ℚ) ≤ 1 + ((s : ℚ) - 1) * (5/10) := by linarith
    have h4 : (0 : ℚ) ≤ max 1 c := le_trans zero_le_one (le_max_left _ _)
    positivity
  have heq : calculate_tip {} u s c =
      max 1000 (min ⌊(10000 : ℚ) * 2 ^ (u - 1) * (1 + ((s : ℚ) - 1) * (5/10)) * max 1 c⌋
        (10 ^ 9)) := by
    simp only [calculate_tip, pyInt]
    rw [if_pos (by push_cast; linarith [hq])]
    push_cast
    norm_num
  refine ⟨heq, ?_, ?_, ?_⟩
  · rw [heq]; exact le_max_left _ _
  · rw [heq]; exact max_le (by norm_num) (le_trans (min_le_right _ _) (by norm_num))
  · intro acct payer t
    constructor
    · simp only [create_tip_instruction]
      exact le_trans (by norm_num) (le_max_left _ _)
    · simp only [create_tip_instruction]
      exact max_le (by norm_num) (le_trans (min_le_right _ _) (by norm_num))

/-- C9 witness: the amended formula evaluated at urgency 1, size 1,
congestion 33/32. -/
theorem C9_tip_clamp_witness :
    (1 : ℤ) ≤ 1 ∧ (0 : ℤ) ≤ 1 ∧ calculate_tip {} 1 1 (33/32) =
      max 1000 (min ⌊(10000 : ℚ) * 2 ^ ((1 : ℤ) - 1) * (1 + ((1 : ℚ) - 1) * (5/10)) *
        max 1 (33/32)⌋ (10 ^ 9)) :=
  ⟨le_refl 1, by norm_num,
   (C9_tip_clamp 1 1 (33/32) (le_refl 1) (by norm_num)).1⟩

/-- C10 (amended): for every confidence in [0,1] and nonnegative capital shared
by the orchestrator and the circuit breaker under the default 5% max-position
limit, the exact decimal size `capital·(0.01 + c·0.04)` is within the limit and
passes `validate_position_size`; and whenever the float round-trip `f2s` that
the code applies to the size (`float(position_size)` handed to the breaker,
then `Decimal(str(size_sol))`) also lands within the limit, `process_signal`
does not return the "Position size exceeds risk limits" rejection (the
hypotheses on `db_error` and `attr_error` rule out the unrelated case of an
exception whose text happens to equal that string).  Without the round-trip
hypothesis the rejection is reachable: see the counterexample at capital
3.3333333333333335. -/
theorem C10_size_within_limits (capital conf : ℚ) (f2s : ℚ → ℚ)
    (h0 : 0 ≤ conf) (h1 : conf ≤ 1) (hc : 0 ≤ capital)
    (hf : f2s (calculate_position_size capital conf) ≤ capital * (5/100)) :
    calculate_position_size capital conf ≤ capital * (5/100) ∧
    validate_position_size capital {} (calculate_position_size capital conf) = true ∧
    validate_position_size capital {} (f2s (calculate_position_size capital conf)) = true ∧
    ∀ (env : EntryCallEnv) (signal : TradeSignal) (st : OrchState),
      signal.confidence = conf →
      env.db_error ≠ "Position size exceeds risk limits" →
      env.attr_error ≠ "Position size exceeds risk limits" →
      (process_signal capital capital {} f2s env signal st).1.error ≠
        some "Position size exceeds risk limits" := by
  have hsize : calculate_position_size capital conf ≤ capital * (5/100) := by
    unfold calculate_position_size
    have hpct : 1/100 + conf * (5/100 - 1/100) ≤ 5/100 := by nlinarith
    exact mul_le_mul_of_nonneg_left hpct hc
  have hval : validate_position_size capital {} (calculate_position_size capital conf) = true := by
    unfold validate_position_size
    rw [if_neg]
    exact not_lt.mpr hsize
  have hval2 : validate_position_size capital {}
      (f2s (calculate_position_size capital conf)) = true := by
    unfold validate_position_size
    rw [if_neg]
    exact not_lt.mpr hf
  refine ⟨hsize, hval, hval2, ?_⟩
  intro env signal st hconf hdb hattr
  simp only [process_signal]
  split_ifs with g1 g2 g3 g4 g5
  · exact fun h => absurd (Option.some.inj h) (by decide)
  · exact fun h => absurd (Option.some.inj h) (by decide)
  · rw [hconf, hval2] at g3
    simp at g3
  · rcases hr : env.route with _ | route
    · simp only [hr]
      exact fun h => absurd (Option.some.inj h) (by decide)
    · simp only [hr]
      simpa using hattr
  · rcases hr : env.route with _ | route
    · simp only [hr]
      exact fun h => absurd (Option.some.inj h) (by decide)
    · simp only [hr]
      simpa using hdb
  · rcases hr : env.route with _ | route
    · simp only [hr]
      exact fun h => absurd (Option.some.inj h) (by decide)
    · simp only [hr]
      simpa using hattr

/-- C10 witness: capital 1000, confidence 1/2, identity round-trip (the size 30
is an exact binary64 value, so `float`/`str` is the identity there). -/
theorem C10_size_within_limits_witness :
    (0 : ℚ) ≤ 1/2 ∧ (1/2 : ℚ) ≤ 1 ∧ (0 : ℚ) ≤ 1000 ∧
    id (calculate_position_size 1000 (1/2)) ≤ 1000 * (5/100) ∧
    validate_position_size 1000 {} (calculate_position_size 1000 (1/2)) = true :=
  ⟨by norm_num, by norm_num, by norm_num,
   by norm_num [calculate_position_size],
   (C10_size_within_limits 1000 (1/2) id (by norm_num) (by norm_num) (by norm_num)
     (by norm_num [calculate_position_size])).2.1⟩

/-- C10 counterexample: at shared capital 3.3333333333333335 SOL (an exact
binary64 value) and confidence 1, the exact decimal position size is
capital·5% = 0.166666666666666675 — equal to the limit, so within it.  But the
code hands the breaker `float(position_size)` and the breaker compares
`Decimal(str(size_sol))`, and that round-trip yields 0.16666666666666669,
which exceeds the limit: `validate_position_size` rejects and `process_signal`
returns the "Position size exceeds risk limits" error the claim calls
unreachable. -/
theorem C10_counterexample :
    calculate_position_size capFloat 1 = 166666666666666675/1000000000000000000 ∧
    sizeFloatRoundTrip (calculate_position_size capFloat 1) =
      16666666666666669/100000000000000000 ∧
    capFloat * (5/100) = 166666666666666675/1000000000000000000 ∧
    (166666666666666675/1000000000000000000 : ℚ) <
      16666666666666669/100000000000000000 ∧
    validate_position_size capFloat {}
      (sizeFloatRoundTrip (calculate_position_size capFloat 1)) = false ∧
    (process_signal capFloat capFloat {} sizeFloatRoundTrip envSizeCheck sigConf1
      {}).1.error = some "Position size exceeds risk limits" := by
  norm_num [calculate_position_size, sizeFloatRoundTrip, capFloat,
    validate_position_size, process_signal, envSizeCheck, sigConf1]

/-- C1 counterexample: two deliveries of the same signal id through
`process_signal`, every gate passing (dict wallet, live route, insert
succeeding), produce two `trade_log` rows carrying the same signal id and two
`record_position_opened` calls — the duplicate is not ignored.  Each call then
fails while building the in-memory position (AttributeError on the repository
collaborators), so both results carry `success = false` and no position is
registered. -/
theorem C1_counterexample :
    orchAfterTwo.trade_log.length = 2 ∧
    orchAfterTwo.record_opened_calls.length = 2 ∧
    (orchAfterTwo.trade_log.map fun row => row.signal_id) = ["sig-1", "sig-1"] ∧
    (process_signal 1000 1000 {} id envDup2 sigDup
      (process_signal 1000 1000 {} id envDup1 sigDup {}).2).1.success = false ∧
    orchAfterTwo.active_positions = [] := by
  norm_num [orchAfterTwo, process_signal, envDup1, envDup2, sigDup,
    calculate_position_size, validate_position_size]

/-- C1 (amended): the orchestrator keeps no record of consumed signal ids and
performs no deduplication: every delivery of a signal that passes the gates
(breaker allows, not a honeypot, size valid, route found, dict-style wallet so
the `.get` lookups succeed, log insert succeeds) runs the full entry sequence,
so two deliveries of the same signal append two `trade_log` rows and call
`record_position_opened` twice.  Each such entry then dies building the
in-memory position — `route.get` on the Route dataclass / `.wallet_id` on the
dict wallet raise AttributeError — so both calls return `success = false` with
the attribute-error message and the duplicate leaves `active_positions`
unchanged. -/
theorem C1_no_dedup (capital bcap : ℚ) (limits : RiskLimits) (f2s : ℚ → ℚ)
    (env1 env2 : EntryCallEnv) (signal : TradeSignal) (st : OrchState) (r1 r2 : Route)
    (h1a : env1.can_trade = true) (h1b : env1.is_honeypot = false)
    (h1c : validate_position_size bcap limits
      (f2s (calculate_position_size capital signal.confidence)) = true)
    (h1d : env1.route = some r1) (h1w : env1.wallet_get_ok = true)
    (h1e : env1.db_ok = true)
    (h2a : env2.can_trade = true) (h2b : env2.is_honeypot = false)
    (h2d : env2.route = some r2) (h2w : env2.wallet_get_ok = true)
    (h2e : env2.db_ok = true) :
    ((process_signal capital bcap limits f2s env2 signal
        (process_signal capital bcap limits f2s env1 signal st).2).2.trade_log.length
      = st.trade_log.length + 2) ∧
    ((process_signal capital bcap limits f2s env2 signal
        (process_signal capital bcap limits f2s env1 signal st).2).2.record_opened_calls.length
      = st.record_opened_calls.length + 2) ∧
    (process_signal capital bcap limits f2s env2 signal
        (process_signal capital bcap limits f2s env1 signal st).2).1.success = false ∧
    (process_signal capital bcap limits f2s env2 signal
        (process_signal capital bcap limits f2s env1 signal st).2).1.error
      = some env2.attr_error ∧
    (process_signal capital bcap limits f2s env2 signal
        (process_signal capital bcap limits f2s env1 signal st).2).2.active_positions
      = st.active_positions := by
  simp [process_signal, h1a, h1b, h1c, h1d, h1w, h1e, h2a, h2b, h2d, h2w, h2e]

/-- C1 witness: the concrete duplicate delivery of `sigDup`. -/
theorem C1_no_dedup_witness :
    ((process_signal 1000 1000 {} id envDup2 sigDup
        (process_signal 1000 1000 {} id envDup1 sigDup {}).2).2.trade_log.length
      = (({} : OrchState)).trade_log.length + 2) :=
  (C1_no_dedup 1000 1000 {} id envDup1 envDup2 sigDup {}
    { price := 1, outAmount := 1000 } { price := 1, outAmount := 1000 }
    rfl rfl (by norm_num [validate_position_size, calculate_position_size, sigDup])
    rfl rfl rfl rfl rfl rfl rfl rfl).1

lemma pyMaxBy_mem {α : Type} (f : α → ℚ) (a : α) (l : List α) :
    pyMaxBy f a l = a ∨ pyMaxBy f a l ∈ l := by
  induction l generalizing a with
  | nil => exact Or.inl rfl
  | cons x xs ih =>
    simp only [pyMaxBy]
    rcases ih (if f x > f a then x else a) with h | h
    · rw [h]
      split_ifs with hc
      · exact Or.inr (List.mem_cons_self _ _)
      · exact Or.inl rfl
    · exact Or.inr (List.mem_cons_of_mem _ h)

/-- C7: if the time delta between a candidate wallet's first funding and the
withdrawal exceeds the 300 s window, or the relative amount delta exceeds the
0.5% hard limit, `_calculate_match_score` returns exactly 0, and since 0 is
below the 0.75 minimum score that candidate is never the match
`process_withdrawal` emits. -/
theorem C7_hard_limits (withdrawal : CEXWithdrawal) (c : FreshWallet)
    (hamt : 0 < withdrawal.amount)
    (h : |c.first_funded_time - withdrawal.timestamp| > 300000 ∨
         |c.first_funded_amount - withdrawal.amount| / withdrawal.amount > 5/1000) :
    calculate_match_score {} withdrawal c = 0 ∧
    ∀ (candidates : List FreshWallet) (m : MatchResult),
      process_withdrawal {} candidates withdrawal = some m → m.wallet ≠ c := by
  have hne : (withdrawal.amount != 0) = true := by
    simp [bne_iff_ne]
    exact hamt.ne'
  have hscore : calculate_match_score {} withdrawal c = 0 := by
    simp only [calculate_match_score, hne, if_true]
    rcases h with h | h
    · rw [if_pos (by push_cast; linarith)]
    · by_cases ht : |c.first_funded_time - withdrawal.timestamp| >
        ((({} : MatcherConfig).MAX_TIME_WINDOW_MS : ℕ) : ℚ)
      · rw [if_pos ht]
      · rw [if_neg ht, if_pos (by push_cast; linarith)]
  refine ⟨hscore, ?_⟩
  intro candidates m hm hwc
  unfold process_withdrawal at hm
  by_cases he : candidates.isEmpty
  · simp [he] at hm
  · simp only [he, if_false, Bool.false_eq_true] at hm
    rcases hs : candidates.filter (fun w =>
        calculate_match_score {} withdrawal w ≥ ({} : MatcherConfig).MIN_MATCH_SCORE) with
      _ | ⟨w, rest⟩
    · rw [hs] at hm
      simp at hm
    · rw [hs] at hm
      have hmw : m.wallet = pyMaxBy (calculate_match_score {} withdrawal) w rest := by
        have := Option.some.inj hm
        rw [← this]
      have hmem : m.wallet ∈ candidates.filter (fun w =>
          calculate_match_score {} withdrawal w ≥ ({} : MatcherConfig).MIN_MATCH_SCORE) := by
        rw [hs, hmw]
        rcases pyMaxBy_mem (calculate_match_score {} withdrawal) w rest with hh | hh
        · rw [hh]; exact List.mem_cons_self _ _
        · exact List.mem_cons_of_mem _ hh
      have hge := (List.mem_filter.mp hmem).2
      rw [hwc] at hge
      simp only [ge_iff_le, decide_eq_true_eq] at hge
      rw [hscore] at hge
      norm_num at hge

/-- C7 witness: a candidate funded 400 s after a 10-SOL withdrawal. -/
theorem C7_hard_limits_witness :
    (0 : ℚ) < wdFix.amount ∧
    (|fwLate.first_funded_time - wdFix.timestamp| > 300000 ∨
      |fwLate.first_funded_amount - wdFix.amount| / wdFix.amount > 5/1000) ∧
    calculate_match_score {} wdFix fwLate = 0 :=
  ⟨by norm_num [wdFix], Or.inl (by norm_num [wdFix, fwLate]),
   (C7_hard_limits wdFix fwLate (by norm_num [wdFix])
     (Or.inl (by norm_num [wdFix, fwLate]))).1⟩

lemma process_event_go_mem (cfg : CorrelationConfig) (env : CorrEnv)
    (event : CorrelationEvent) (l : List CorrelationEvent) (r : CorrelationResult) :
    r ∈ (process_event_go cfg env event l).1 ↔
      ∃ o ∈ l, o.wallet_address ≠ event.wallet_address ∧
        r = calculate_correlation cfg env event o ∧
        r.correlation_score ≥ cfg.MIN_CORRELATION_SCORE := by
  induction l with
  | nil => simp [process_event_go]
  | cons o rest ih =>
    simp only [process_event_go]
    by_cases hw : o.wallet_address = event.wallet_address
    · rw [if_pos hw]
      rw [ih]
      constructor
      · rintro ⟨o', ho', h⟩
        exact ⟨o', List.mem_cons_of_mem _ ho', h⟩
      · rintro ⟨o', ho', hne, h⟩
        rcases List.mem_cons.mp ho' with rfl | ho'
        · exact absurd hw hne
        · exact ⟨o', ho', hne, h⟩
    · rw [if_neg hw]
      by_cases hsc : (calculate_correlation cfg env event o).correlation_score ≥
          cfg.MIN_CORRELATION_SCORE
      · rw [if_pos hsc]
        constructor
        · intro hr
          rcases List.mem_cons.mp hr with rfl | hr
          · exact ⟨o, List.mem_cons_self _ _, hw, rfl, hsc⟩
          · obtain ⟨o', ho', h⟩ := ih.mp hr
            exact ⟨o', List.mem_cons_of_mem _ ho', h⟩
        · rintro ⟨o', ho', hne, hr, hge⟩
          rcases List.mem_cons.mp ho' with rfl | ho'
          · exact List.mem_cons.mpr (Or.inl hr)
          · exact List.mem_cons.mpr (Or.inr (ih.mpr ⟨o', ho', hne, hr, hge⟩))
      · rw [if_neg hsc]
        rw [ih]
        constructor
        · rintro ⟨o', ho', h⟩
          exact ⟨o', List.mem_cons_of_mem _ ho', h⟩
        · rintro ⟨o', ho', hne, hr, hge⟩
          rcases List.mem_cons.mp ho' with rfl | ho'
          · exact absurd (hr ▸ hge) hsc
          · exact ⟨o', ho', hne, hr, hge⟩

lemma process_event_go_edges (cfg : CorrelationConfig) (env : CorrEnv)
    (event : CorrelationEvent) (l : List CorrelationEvent) :
    (process_event_go cfg env event l).2.1 =
      ((process_event_go cfg env event l).1).map (fun r => (r.wallet_a, r.wallet_b)) := by
  induction l with
  | nil => simp [process_event_go]
  | cons o rest ih =>
    simp only [process_event_go]
    split_ifs <;> simp [ih]

lemma process_event_go_escalations (cfg : CorrelationConfig) (env : CorrEnv)
    (event : CorrelationEvent) (l : List CorrelationEvent) :
    (process_event_go cfg env event l).2.2 =
      ((process_event_go cfg env event l).1).flatMap (fun r => [r.wallet_a, r.wallet_b]) := by
  induction l with
  | nil => simp [process_event_go]
  | cons o rest ih =>
    simp only [process_event_go]
    split_ifs <;> simp [ih]

/-- C6 counterexample: a wallet pair whose computed correlation score is
11/20 = 0.55 — below the claimed ρ_min = 0.6 — is still emitted, gets a
`CORRELATED_WITH` edge and has both participants escalated, because the
deployed default `MIN_CORRELATION_SCORE` is 0.5 ("lowered from 0.6 for
testing"). -/
theorem C6_counterexample :
    ((process_event {} corrEnvNeutral [corrEvA, corrEvB] corrEvA).1.map
        (fun r => (r.wallet_a, r.wallet_b, r.correlation_score))
      = [("walletA", "walletB", (11/20 : ℚ))]) ∧
    (process_event {} corrEnvNeutral [corrEvA, corrEvB] corrEvA).2.1 =
      [("walletA", "walletB")] ∧
    (process_event {} corrEnvNeutral [corrEvA, corrEvB] corrEvA).2.2 =
      ["walletA", "walletB"] ∧
    ((11/20 : ℚ) < 6/10) := by
  norm_num [process_event, process_event_go, calculate_correlation,
    corrEnvNeutral, corrEvA, corrEvB]
  split_ifs with h
  · exact absurd h (by decide)
  · norm_num

/-- C6 (amended): for every incoming event on a monitored program with at
least `MIN_CLUSTER_SIZE = 2` matching events, a pairwise `CorrelationResult`
is emitted exactly for the matching events of a distinct wallet whose computed
score reaches the configured default threshold 0.5 (not 0.6), and the
`CORRELATED_WITH` edges and confidence escalations are exactly one edge and
both participants per emitted result. -/
theorem C6_threshold (env : CorrEnv) (matching : List CorrelationEvent)
    (event : CorrelationEvent)
    (hmon : ({} : CorrelationConfig).MONITORED_PROGRAMS.contains
      event.contract_address = true)
    (hsize : 2 ≤ matching.length) :
    (∀ r, r ∈ (process_event {} env matching event).1 ↔
      ∃ o ∈ matching, o.wallet_address ≠ event.wallet_address ∧
        r = calculate_correlation {} env event o ∧ r.correlation_score ≥ 5/10) ∧
    (process_event {} env matching event).2.1 =
      ((process_event {} env matching event).1).map (fun r => (r.wallet_a, r.wallet_b)) ∧
    (process_event {} env matching event).2.2 =
      ((process_event {} env matching event).1).flatMap
        (fun r => [r.wallet_a, r.wallet_b]) := by
  have hpe : process_event {} env matching event =
      process_event_go {} env event matching := by
    unfold process_event
    rw [hmon]
    simp only [Bool.not_true, Bool.false_eq_true, if_false]
    rw [if_neg (by omega)]
  rw [hpe]
  exact ⟨fun r => process_event_go_mem {} env event matching r,
    process_event_go_edges {} env event matching,
    process_event_go_escalations {} env event matching⟩

/-- C6 witness: the two-event fixture on the monitored Raydium program. -/
theorem C6_threshold_witness :
    ({} : CorrelationConfig).MONITORED_PROGRAMS.contains corrEvA.contract_address = true ∧
    2 ≤ ([corrEvA, corrEvB] : List CorrelationEvent).length ∧
    (process_event {} corrEnvNeutral [corrEvA, corrEvB] corrEvA).2.1 =
      ((process_event {} corrEnvNeutral [corrEvA, corrEvB] corrEvA).1).map
        (fun r => (r.wallet_a, r.wallet_b)) :=
  ⟨by decide, by decide,
   (C6_threshold corrEnvNeutral [corrEvA, corrEvB] corrEvA (by decide) (by decide)).2.1⟩

/-- C3 counterexample: on the Scenario E price feed the exit loop sells at
2.1p, 4.8p, 5.2p AND 11p — T1 re-fires at 4.8p because no per-position tier
state is kept — leaving remaining fraction 1/16 = 0.0625, not the claimed
0.125 with legs only at 2.1p, 5.2p and 11p. -/
theorem C3_counterexample :
    ((run_exit_checks {} (scenEPrices 1) (scenEState 1 1)).2.map
        (fun leg => (leg.tier, leg.exit_price))
      = [(ExitTier.T1, 21/10), (ExitTier.T1, 24/5), (ExitTier.T2, 26/5),
         (ExitTier.T3, 11)]) ∧
    ((run_exit_checks {} (scenEPrices 1) (scenEState 1 1)).1.active_positions.map
        (fun kv => (kv.1, kv.2.remaining_pct)) = [("t", (1/16 : ℚ))]) ∧
    ((1/16 : ℚ) ≠ 1/8) := by
  norm_num [run_exit_checks, check_exits, check_exits_go, execute_exit,
    check_exit_decision, scenEPrices, scenEState, posScenE, dictGet, dictSet,
    dictDel, log_trade_exit]

/-- C3 (amended): for every entry price p > 0 and token amount a > 0, running
the exit check on prices 1.5p, 2.1p, 4.8p, 5.2p, 11p (each sell leg
succeeding) produces sell legs at 2.1p (T1), 4.8p (T1 again), 5.2p (T2) and
11p (T3), each selling 50% of the remaining holding, and leaves the position
open with remaining fraction 1/16. -/
theorem C3_tiered_exit (p a : ℚ) (hp : 0 < p) (ha : 0 < a) :
    ((run_exit_checks {} (scenEPrices p) (scenEState p a)).2.map
        (fun leg => (leg.tier, leg.sell_pct, leg.tokens_sold, leg.exit_price))
      = [(ExitTier.T1, 1/2, a * 1 * (1/2), 21/10 * p),
         (ExitTier.T1, 1/2, a * (1/2) * (1/2), 24/5 * p),
         (ExitTier.T2, 1/2, a * (1/4) * (1/2), 26/5 * p),
         (ExitTier.T3, 1/2, a * (1/8) * (1/2), 11 * p)]) ∧
    (run_exit_checks {} (scenEPrices p) (scenEState p a)).1.active_positions =
      [("t", { posScenE p a with remaining_pct := 1/16 })] := by
  have hp' : p ≠ 0 := ne_of_gt hp
  have hdiv : ∀ c : ℚ, c * p / p = c := fun c => mul_div_cancel_right₀ c hp'
  have k1 : (a * (1/2 : ℚ) ≤ 0) = False := eq_false (not_le.mpr (by positivity))
  have k2 : (a * (1/2 : ℚ) * (1/2) ≤ 0) = False := eq_false (not_le.mpr (by positivity))
  have k3 : (a * (1/4 : ℚ) ≤ 0) = False := eq_false (not_le.mpr (by positivity))
  have k4 : (a * (1/4 : ℚ) * (1/2) ≤ 0) = False := eq_false (not_le.mpr (by positivity))
  have k5 : (a * (1/8 : ℚ) ≤ 0) = False := eq_false (not_le.mpr (by positivity))
  have k6 : (a * (1/8 : ℚ) * (1/2) ≤ 0) = False := eq_false (not_le.mpr (by positivity))
  have k7 : (a * (1/16 : ℚ) ≤ 0) = False := eq_false (not_le.mpr (by positivity))
  norm_num [run_exit_checks, check_exits, check_exits_go, execute_exit,
    check_exit_decision, scenEPrices, scenEState, posScenE, dictGet, dictSet,
    dictDel, log_trade_exit, hdiv, not_le.mpr hp, not_le.mpr ha,
    k1, k2, k3, k4, k5, k6, k7]

lemma b64val_b64chr_fin : ∀ v : Fin 64, b64val (b64chr v.val) = some v.val := by decide

lemma b64val_b64chr (v : ℕ) (h : v < 64) : b64val (b64chr v) = some v :=
  b64val_b64chr_fin ⟨v, h⟩

lemma b64chr_ne_pad_fin : ∀ v : Fin 64, (b64chr v.val = '=') = False := by decide

lemma b64chr_ne_pad (v : ℕ) (h : v < 64) : (b64chr v = '=') = False :=
  b64chr_ne_pad_fin ⟨v, h⟩

lemma b64encode_ne_nil : ∀ (bs : List ℕ), bs ≠ [] → b64encodeBytes bs ≠ []
  | [], h => absurd rfl h
  | [_], _ => by simp [b64encodeBytes]
  | [_, _], _ => by simp [b64encodeBytes]
  | _ :: _ :: _ :: _, _ => by simp [b64encodeBytes]

theorem b64_roundtrip : ∀ (bs : List ℕ), (∀ b ∈ bs, b < 256) →
    b64decodeChars (b64encodeBytes bs) = some bs
  | [], _ => rfl
  | [b1], h => by
    have hb1 : b1 < 256 := h b1 (by simp)
    simp only [b64encodeBytes, b64decodeChars, List.isEmpty_nil, if_true]
    rw [b64val_b64chr _ (by omega), b64val_b64chr _ (by omega)]
    simp
    omega
  | [b1, b2], h => by
    have hb1 : b1 < 256 := h b1 (by simp)
    have hb2 : b2 < 256 := h b2 (by simp)
    simp only [b64encodeBytes, b64decodeChars, List.isEmpty_nil, if_true]
    rw [b64val_b64chr _ (by omega), b64val_b64chr _ (by omega), b64val_b64chr _ (by omega)]
    simp [b64chr_ne_pad _ (by omega : b2 % 16 * 4 < 64)]
    omega
  | b1 :: b2 :: b3 :: rest, h => by
    have hb1 : b1 < 256 := h b1 (by simp)
    have hb2 : b2 < 256 := h b2 (by simp)
    have hb3 : b3 < 256 := h b3 (by simp)
    have ih := b64_roundtrip rest (fun b hb => h b (by simp [hb]))
    cases rest with
    | nil =>
      simp only [b64encodeBytes, b64decodeChars, List.isEmpty_nil, if_true]
      rw [b64val_b64chr _ (by omega), b64val_b64chr _ (by omega),
        b64val_b64chr _ (by omega), b64val_b64chr _ (by omega)]
      simp [b64chr_ne_pad _ (by omega : b2 % 16 * 4 + b3 / 64 < 64),
        b64chr_ne_pad _ (by omega : b3 % 64 < 64)]
      omega
    | cons r1 rs =>
      have hnn : b64encodeBytes (r1 :: rs) ≠ [] := b64encode_ne_nil _ (by simp)
      have hstep : b64decodeChars (b64chr (b1 / 4) :: b64chr (b1 % 4 * 16 + b2 / 16) ::
          b64chr (b2 % 16 * 4 + b3 / 64) :: b64chr (b3 % 64) :: b64encodeBytes (r1 :: rs)) =
          match b64val (b64chr (b1 / 4)), b64val (b64chr (b1 % 4 * 16 + b2 / 16)),
            b64val (b64chr (b2 % 16 * 4 + b3 / 64)), b64val (b64chr (b3 % 64)),
            b64decodeChars (b64encodeBytes (r1 :: rs)) with
          | some v1, some v2, some v3, some v4, some bs =>
            some ((v1 * 4 + v2 / 16) :: (v2 % 16 * 16 + v3 / 4) ::
              (v3 % 4 * 64 + v4) :: bs)
          | _, _, _, _, _ => none := by
        rw [b64decodeChars]
        rw [if_neg (by simpa using hnn)]
      show b64decodeChars (b64chr (b1 / 4) :: b64chr (b1 % 4 * 16 + b2 / 16) ::
          b64chr (b2 % 16 * 4 + b3 / 64) :: b64chr (b3 % 64) :: b64encodeBytes (r1 :: rs)) =
        some (b1 :: b2 :: b3 :: r1 :: rs)
      rw [hstep, b64val_b64chr _ (by omega), b64val_b64chr _ (by omega),
        b64val_b64chr _ (by omega), b64val_b64chr _ (by omega), ih]
      simp
      omega

lemma xorsum_lt (bs : List ℕ) (h : ∀ b ∈ bs, b < 256) : xorsum bs < 256 := by
  induction bs with
  | nil => simp [xorsum]
  | cons b t ih =>
    have hx : xorsum (b :: t) = b ^^^ xorsum t := rfl
    rw [hx]
    have h1 : b < 2 ^ 8 := by simpa using h b (by simp)
    have h2 : xorsum t < 2 ^ 8 := by simpa using ih (fun x hx => h x (by simp [hx]))
    simpa using Nat.xor_lt_two_pow h1 h2

lemma xorsum_flip (bs : List ℕ) (i d : ℕ) (h : i < bs.length) :
    xorsum (bs.set i (bs.getD i 0 ^^^ d)) = xorsum bs ^^^ d := by
  induction bs generalizing i with
  | nil => simp at h
  | cons b t ih =>
    cases i with
    | zero =>
      show (b ^^^ d) ^^^ xorsum t = (b ^^^ xorsum t) ^^^ d
      rw [Nat.xor_assoc, Nat.xor_comm d, ← Nat.xor_assoc]
    | succ n =>
      show b ^^^ xorsum (t.set n (t.getD n 0 ^^^ d)) = (b ^^^ xorsum t) ^^^ d
      rw [ih n (by simpa using h), ← Nat.xor_assoc]

lemma flip_mod_ne (x j : ℕ) (hx : x < 256) (hj : j < 8) :
    (x ^^^ 2 ^ j) % 256 ≠ x % 256 := by
  have h2 : 2 ^ j < 256 := by
    calc 2 ^ j ≤ 2 ^ 7 := Nat.pow_le_pow_right (by norm_num) (by omega)
    _ < 256 := by norm_num
  have hlt : x ^^^ 2 ^ j < 256 := by
    simpa using Nat.xor_lt_two_pow (n := 8) (by simpa using hx) (by simpa using h2)
  rw [Nat.mod_eq_of_lt hlt, Nat.mod_eq_of_lt hx]
  intro heq
  have h0 : x ^^^ (x ^^^ 2 ^ j) = x ^^^ x := congrArg (x ^^^ ·) heq
  rw [← Nat.xor_assoc, Nat.xor_self, Nat.zero_xor] at h0
  exact absurd h0 (Nat.two_pow_pos j).ne'

lemma flip_ne_self (x j : ℕ) : x ^^^ 2 ^ j ≠ x := by
  intro heq
  have h0 : x ^^^ (x ^^^ 2 ^ j) = x ^^^ x := congrArg (x ^^^ ·) heq
  rw [← Nat.xor_assoc, Nat.xor_self, Nat.zero_xor] at h0
  exact absurd h0 (Nat.two_pow_pos j).ne'

lemma gcmTag_length (key nonce pt : List ℕ) : (gcmTag key nonce pt).length = 16 := by
  simp [gcmTag]

lemma gcmTag_mem_lt (key nonce pt : List ℕ) : ∀ b ∈ gcmTag key nonce pt, b < 256 := by
  intro b hb
  simp [gcmTag] at hb
  rcases hb with rfl | rfl | rfl | rfl | rfl <;>
    first
      | exact Nat.mod_lt _ (by norm_num)
      | norm_num

lemma String_mk_isEmpty_false (l : List Char) (h : l ≠ []) :
    (String.mk l).isEmpty = false := by
  rw [Bool.eq_false_iff]
  intro he
  have hs := (String.isEmpty_iff _).mp he
  exact h (by simpa using congrArg String.data hs)

lemma tag_ne_nonce_flip (key nonce k : List ℕ) (i j : ℕ) (hi : i < nonce.length)
    (hj : j < 8) (hnon : ∀ b ∈ nonce, b < 256) :
    gcmTag key (nonce.set i (nonce.getD i 0 ^^^ 2 ^ j)) k ≠ gcmTag key nonce k := by
  intro heq
  have h1 := congrArg (fun l => l.getD 1 0) heq
  simp only [gcmTag, List.getD_cons_succ, List.getD_cons_zero] at h1
  rw [xorsum_flip _ _ _ hi] at h1
  exact flip_mod_ne (xorsum nonce) j (xorsum_lt nonce hnon) hj h1

lemma tag_ne_body_flip (key nonce k : List ℕ) (i j : ℕ) (hi : i < k.length)
    (hj : j < 8) (hkb : ∀ b ∈ k, b < 256) :
    gcmTag key nonce (k.set i (k.getD i 0 ^^^ 2 ^ j)) ≠ gcmTag key nonce k := by
  intro heq
  have h1 := congrArg (fun l => l.getD 2 0) heq
  simp only [gcmTag, List.getD_cons_succ, List.getD_cons_zero] at h1
  rw [xorsum_flip _ _ _ hi] at h1
  exact flip_mod_ne (xorsum k) j (xorsum_lt k hkb) hj h1

lemma set_flip_ne (l : List ℕ) (i j : ℕ) (hi : i < l.length) :
    l.set i (l.getD i 0 ^^^ 2 ^ j) ≠ l := by
  intro heq
  have h1 := congrArg (fun l' => l'.getD i 0) heq
  simp only at h1
  rw [List.getD_eq_getElem?_getD, List.getElem?_eq_getElem (by simpa using hi),
    List.getElem_set_self, List.getD_eq_getElem?_getD, List.getElem?_eq_getElem hi] at h1
  simp only [Option.getD_some] at h1
  exact flip_ne_self _ j h1

lemma decrypt_key_flip (key nonce k : List ℕ)
    (hkey : ∀ b ∈ key, b < 256) (hnon : ∀ b ∈ nonce, b < 256) (hkb : ∀ b ∈ k, b < 256)
    (hn12 : nonce.length = 12) (hne : k ≠ []) (i j : ℕ)
    (hi : i < (nonce ++ aesgcm_encrypt key nonce k).length) (hj : j < 8) :
    decrypt_key key (String.mk (b64encodeBytes
      (flipByte (nonce ++ aesgcm_encrypt key nonce k) i j)))
      = Except.error "Failed to decrypt key" := by
  have hklen : 0 < k.length := List.length_pos.mpr hne
  have hdlen : (nonce ++ aesgcm_encrypt key nonce k).length = 12 + (k.length + 16) := by
    simp [aesgcm_encrypt, gcmTag, hn12]
  have hall : ∀ b ∈ nonce ++ aesgcm_encrypt key nonce k, b < 256 := by
    intro b hb
    rcases List.mem_append.mp hb with hb | hb
    · exact hnon b hb
    · rcases List.mem_append.mp hb with hb | hb
      · exact hkb b hb
      · exact gcmTag_mem_lt key nonce k b hb
  have hgd : (nonce ++ aesgcm_encrypt key nonce k).getD i 0 < 256 := by
    refine hall _ ?_
    rw [List.getD_eq_getElem?_getD, List.getElem?_eq_getElem hi]
    exact List.getElem_mem _
  have h2j : 2 ^ j < 256 := by
    calc 2 ^ j ≤ 2 ^ 7 := Nat.pow_le_pow_right (by norm_num) (by omega)
    _ < 256 := by norm_num
  have hvlt : (nonce ++ aesgcm_encrypt key nonce k).getD i 0 ^^^ 2 ^ j < 256 := by
    simpa using Nat.xor_lt_two_pow (n := 8) (by simpa using hgd) (by simpa using h2j)
  have hflip : flipByte (nonce ++ aesgcm_encrypt key nonce k) i j =
      (nonce ++ aesgcm_encrypt key nonce k).set i
        ((nonce ++ aesgcm_encrypt key nonce k).getD i 0 ^^^ 2 ^ j) := rfl
  have hvb : ∀ b ∈ (nonce ++ aesgcm_encrypt key nonce k).set i
      ((nonce ++ aesgcm_encrypt key nonce k).getD i 0 ^^^ 2 ^ j), b < 256 := by
    intro b hb
    rcases List.mem_or_eq_of_mem_set hb with hb | rfl
    · exact hall b hb
    · exact hvlt
  have hsetlen : ((nonce ++ aesgcm_encrypt key nonce k).set i
      ((nonce ++ aesgcm_encrypt key nonce k).getD i 0 ^^^ 2 ^ j)).length =
      12 + (k.length + 16) := by
    simp [hdlen]
  have hsetne : (nonce ++ aesgcm_encrypt key nonce k).set i
      ((nonce ++ aesgcm_encrypt key nonce k).getD i 0 ^^^ 2 ^ j) ≠ [] := by
    intro h
    have := congrArg List.length h
    rw [hsetlen] at this
    simp at this
  rw [hflip]
  simp only [decrypt_key]
  rw [String_mk_isEmpty_false _ (b64encode_ne_nil _ hsetne)]
  simp only [Bool.false_eq_true, if_false]
  have hdec : b64decodeChars (String.mk (b64encodeBytes
      ((nonce ++ aesgcm_encrypt key nonce k).set i
        ((nonce ++ aesgcm_encrypt key nonce k).getD i 0 ^^^ 2 ^ j)))).data =
      some ((nonce ++ aesgcm_encrypt key nonce k).set i
        ((nonce ++ aesgcm_encrypt key nonce k).getD i 0 ^^^ 2 ^ j)) :=
    b64_roundtrip _ hvb
  simp only [hdec]
  rw [if_neg (by rw [hsetlen]; omega)]
  rcases Nat.lt_or_ge i 12 with hi12 | hi12
  · -- the flip hits the nonce
    have hgdn : (nonce ++ aesgcm_encrypt key nonce k).getD i 0 = nonce.getD i 0 :=
      List.getD_append _ _ _ _ (by omega)
    have htake : ((nonce ++ aesgcm_encrypt key nonce k).set i
        ((nonce ++ aesgcm_encrypt key nonce k).getD i 0 ^^^ 2 ^ j)).take 12 =
        nonce.set i (nonce.getD i 0 ^^^ 2 ^ j) := by
      rw [List.set_take, List.take_left' hn12, hgdn]
    have hdrop : ((nonce ++ aesgcm_encrypt key nonce k).set i
        ((nonce ++ aesgcm_encrypt key nonce k).getD i 0 ^^^ 2 ^ j)).drop 12 =
        aesgcm_encrypt key nonce k := by
      rw [List.drop_set, if_pos hi12, List.drop_left' hn12]
    rw [htake, hdrop]
    simp only [aesgcm_encrypt, aesgcm_decrypt]
    rw [if_neg (by simp [gcmTag_length] <;> omega)]
    have hsplit : (k ++ gcmTag key nonce k).length - 16 = k.length := by
      simp [gcmTag_length]
    rw [hsplit, List.take_left, List.drop_left]
    rw [if_neg]
    intro heq
    exact tag_ne_nonce_flip key nonce k i j (by omega) hj hnon heq.symm
  · -- the flip hits the ciphertext (body or tag)
    have htake : ((nonce ++ aesgcm_encrypt key nonce k).set i
        ((nonce ++ aesgcm_encrypt key nonce k).getD i 0 ^^^ 2 ^ j)).take 12 = nonce := by
      rw [List.set_take, List.take_left' hn12]
      exact List.set_eq_of_length_le (by omega)
    have hdrop : ((nonce ++ aesgcm_encrypt key nonce k).set i
        ((nonce ++ aesgcm_encrypt key nonce k).getD i 0 ^^^ 2 ^ j)).drop 12 =
        (aesgcm_encrypt key nonce k).set (i - 12)
          ((nonce ++ aesgcm_encrypt key nonce k).getD i 0 ^^^ 2 ^ j) := by
      rw [List.drop_set, if_neg (by omega), List.drop_left' hn12]
    have hgdr : (nonce ++ aesgcm_encrypt key nonce k).getD i 0 =
        (aesgcm_encrypt key nonce k).getD (i - 12) 0 := by
      rw [List.getD_append_right _ _ _ _ (by omega), hn12]
    rw [htake, hdrop, hgdr]
    rcases Nat.lt_or_ge (i - 12) k.length with hib | hib
    · -- body byte flipped
      have hgdk : (aesgcm_encrypt key nonce k).getD (i - 12) 0 = k.getD (i - 12) 0 := by
        simp only [aesgcm_encrypt]
        exact List.getD_append _ _ _ _ hib
      have hset : (aesgcm_encrypt key nonce k).set (i - 12)
          (k.getD (i - 12) 0 ^^^ 2 ^ j) =
          (k.set (i - 12) (k.getD (i - 12) 0 ^^^ 2 ^ j)) ++ gcmTag key nonce k := by
        simp only [aesgcm_encrypt]
        exact List.set_append_left _ _ hib
      rw [hgdk, hset]
      simp only [aesgcm_decrypt]
      rw [if_neg (by simp [gcmTag_length] <;> omega)]
      have hsplit : ((k.set (i - 12) (k.getD (i - 12) 0 ^^^ 2 ^ j)) ++
          gcmTag key nonce k).length - 16 =
          (k.set (i - 12) (k.getD (i - 12) 0 ^^^ 2 ^ j)).length := by
        simp [gcmTag_length]
      rw [hsplit, List.take_left, List.drop_left]
      rw [if_neg]
      intro heq
      exact tag_ne_body_flip key nonce k (i - 12) j hib hj hkb heq.symm
    · -- tag byte flipped
      have hgdt : (aesgcm_encrypt key nonce k).getD (i - 12) 0 =
          (gcmTag key nonce k).getD (i - 12 - k.length) 0 := by
        simp only [aesgcm_encrypt]
        exact List.getD_append_right _ _ _ _ hib
      have hset : (aesgcm_encrypt key nonce k).set (i - 12)
          ((gcmTag key nonce k).getD (i - 12 - k.length) 0 ^^^ 2 ^ j) =
          k ++ (gcmTag key nonce k).set (i - 12 - k.length)
            ((gcmTag key nonce k).getD (i - 12 - k.length) 0 ^^^ 2 ^ j) := by
        simp only [aesgcm_encrypt]
        exact List.set_append_right _ _ hib
      rw [hgdt, hset]
      simp only [aesgcm_decrypt]
      have htlen : ((gcmTag key nonce k).set (i - 12 - k.length)
          ((gcmTag key nonce k).getD (i - 12 - k.length) 0 ^^^ 2 ^ j)).length = 16 := by
        simp [gcmTag_length]
      rw [if_neg (by simp only [List.length_append, htlen]; omega)]
      have hsplit : (k ++ (gcmTag key nonce k).set (i - 12 - k.length)
          ((gcmTag key nonce k).getD (i - 12 - k.length) 0 ^^^ 2 ^ j)).length - 16 =
          k.length := by
        simp [gcmTag_length]
      rw [hsplit, List.take_left, List.drop_left]
      rw [if_neg]
      have hit : i - 12 - k.length < 16 := by
        rw [hdlen] at hi
        omega
      exact set_flip_ne (gcmTag key nonce k) (i - 12 - k.length) j
        (by rw [gcmTag_length]; omega)

/-- C8 (amended): for every well-formed key material — cipher key, 12-byte
nonce, non-empty plaintext key, all bytes — `decrypt_key (encrypt_key k) = k`;
and every single-bit flip applied to the decoded binary blob
(nonce ∥ ciphertext ∥ tag) before re-encoding is rejected with a
`KeyEncryptionError`.  (At the base64 layer the analogous statement fails:
see the counterexample, where a flip confined to the unused trailing bits of
the final base64 character is accepted.) -/
theorem C8_roundtrip_tamper (key nonce k : List ℕ)
    (hkey : ∀ b ∈ key, b < 256) (hnon : ∀ b ∈ nonce, b < 256) (hkb : ∀ b ∈ k, b < 256)
    (hn12 : nonce.length = 12) (hne : k ≠ []) :
    (∀ s, encrypt_key key nonce k = .ok s → decrypt_key key s = .ok k) ∧
    (∀ i j, i < (nonce ++ aesgcm_encrypt key nonce k).length → j < 8 →
      decrypt_key key (String.mk (b64encodeBytes
        (flipByte (nonce ++ aesgcm_encrypt key nonce k) i j)))
        = Except.error "Failed to decrypt key") := by
  constructor
  · intro s hs
    have hklen : 0 < k.length := List.length_pos.mpr hne
    have hkne : k.isEmpty = false := by
      rw [Bool.eq_false_iff]
      intro h
      exact hne (List.isEmpty_iff.mp h)
    have hall : ∀ b ∈ nonce ++ aesgcm_encrypt key nonce k, b < 256 := by
      intro b hb
      rcases List.mem_append.mp hb with hb | hb
      · exact hnon b hb
      · rcases List.mem_append.mp hb with hb | hb
        · exact hkb b hb
        · exact gcmTag_mem_lt key nonce k b hb
    have hdlen : (nonce ++ aesgcm_encrypt key nonce k).length = 12 + (k.length + 16) := by
      simp [aesgcm_encrypt, gcmTag, hn12]
    have hdatne : nonce ++ aesgcm_encrypt key nonce k ≠ [] := by
      intro h
      have := congrArg List.length h
      rw [hdlen] at this
      simp at this
    rw [encrypt_key, if_neg (by simp [hkne])] at hs
    have hs' : s = String.mk (b64encodeBytes (nonce ++ aesgcm_encrypt key nonce k)) :=
      (Except.ok.inj hs).symm
    subst hs'
    simp only [decrypt_key]
    rw [String_mk_isEmpty_false _ (b64encode_ne_nil _ hdatne)]
    simp only [Bool.false_eq_true, if_false]
    simp only [b64_roundtrip _ hall]
    rw [if_neg (by rw [hdlen]; omega)]
    rw [List.take_left' hn12, List.drop_left' hn12]
    simp only [aesgcm_encrypt, aesgcm_decrypt]
    rw [if_neg (by simp [gcmTag_length] <;> omega)]
    have hsplit : (k ++ gcmTag key nonce k).length - 16 = k.length := by
      simp [gcmTag_length]
    rw [hsplit, List.take_left, List.drop_left, if_pos rfl]
  · intro i j hi hj
    exact decrypt_key_flip key nonce k hkey hnon hkb hn12 hne i j hi hj

/-- C8 witness: the round trip for the one-byte key `[0]` under the all-zero
cipher key and nonce. -/
theorem C8_roundtrip_tamper_witness :
    gcmKey0.length = 32 ∧ nonce0.length = 12 ∧ ([0] : List ℕ) ≠ [] ∧
    (∀ s, encrypt_key gcmKey0 nonce0 [0] = .ok s → decrypt_key gcmKey0 s = .ok [0]) :=
  ⟨rfl, rfl, by simp,
   (C8_roundtrip_tamper gcmKey0 nonce0 [0]
     (by intro b hb; simp [gcmKey0] at hb; omega)
     (by intro b hb; simp [nonce0] at hb; omega)
     (by intro b hb; simp at hb; omega)
     rfl (by simp)).1⟩

/-- C8 counterexample: flipping bit 1 of character 38 of the stored blob for
the key `[0]` (an `A` becomes a `C`, a change confined to the unused trailing
bits of the final base64 data character) yields a different blob that
`decrypt_key` happily accepts, returning the original key instead of raising —
CPython's `b64decode` discards those bits, so the single-bit-flip tamper claim
fails at the base64 layer. -/
theorem C8_counterexample :
    encrypt_key gcmKey0 nonce0 [0] = .ok blobOneByte ∧
    flipCharBit blobOneByte 38 1 ≠ blobOneByte ∧
    ((flipCharBit blobOneByte 38 1).data.getD 38 'A').toNat ^^^
      (blobOneByte.data.getD 38 'A').toNat = 2 ∧
    decrypt_key gcmKey0 (flipCharBit blobOneByte 38 1) = .ok [0] := by
  refine ⟨rfl, by decide, by decide, rfl⟩

/-- C3 witness: the scenario at p = 1, a = 1. -/
theorem C3_tiered_exit_witness :
    (0 : ℚ) < 1 ∧
    (run_exit_checks {} (scenEPrices 1) (scenEState 1 1)).1.active_positions =
      [("t", { posScenE 1 1 with remaining_pct := 1/16 })] :=
  ⟨by norm_num, (C3_tiered_exit 1 1 (by norm_num) (by norm_num)).2⟩
